import Mathlib

/-!
Verification of the UrbanScope incremental harvesting pipeline
(`scripts/urbanscope_radar_v3.py`, `scripts/urbanscope_harvester/*.py`).

The Python sources are shallowly embedded: pure functions become Lean
functions, dict/set state becomes explicit association lists and string
lists threaded through the functions, and the external NCBI E-utilities
calls become deterministic oracle functions bundled in a structure (the
I/O boundary).  Exceptions are modelled with `Except`.
-/

/-! ## Chunked exporter: `write_json_array_chunked` (utils.py)

Records are abstract (`α`); `sz r` stands for the byte length of
`json.dumps(r, ensure_ascii=False, indent=2)` encoded as UTF-8.
The opening `"[\n"` is 2 bytes, the separator `",\n"` is 2 bytes and the
closing `"\n]\n"` is 3 bytes; `curBytes` mirrors `cur.tell()`. -/

/-- One closed part file: its index (used in the file name), the records it
holds, the `n_part` counter at close time, and its final byte size. -/
structure ChunkPart (α : Type) where
  idx : Nat
  recs : List α
  nRecs : Nat
  size : Nat
  deriving Repr, DecidableEq

/-- The exporter's loop state: closed parts so far, current part index,
records and byte count of the open part, the `first` flag, and the
`n_total` / `n_part` counters. -/
structure ChunkState (α : Type) where
  parts : List (ChunkPart α)
  partIdx : Nat
  cur : List α
  curBytes : Nat
  first : Bool
  nTotal : Nat
  nPart : Nat
  deriving Repr, DecidableEq

/-- State right after opening the first part and writing `"[\n"`. -/
def chunkInit (α : Type) : ChunkState α :=
  { parts := []
    partIdx := 0
    cur := []
    curBytes := 2
    first := true
    nTotal := 0
    nPart := 0 }

/-- Close the currently open part: write `"\n]\n"` (3 bytes) and append the
part record, as at both closing sites of `write_json_array_chunked`. -/
def closePart {α : Type} (st : ChunkState α) : List (ChunkPart α) :=
  st.parts ++ [{ idx := st.partIdx
                 recs := st.cur
                 nRecs := st.nPart
                 size := st.curBytes + 3 }]

/-- Body of the `for rec in records_iter` loop of `write_json_array_chunked`:
compute the entry size, rotate to a fresh part when the entry plus the
closing `"\n]\n"` would overflow `max_bytes` and the part is non-empty,
then write the entry. -/
def chunkStep {α : Type} (sz : α → Nat) (maxBytes : Nat)
    (st : ChunkState α) (rec : α) : ChunkState α :=
  let blob := sz rec
  let entry := if st.first then blob else blob + 2
  if st.curBytes + entry + 3 > maxBytes ∧ st.first = false then
    { parts := closePart st
      partIdx := st.partIdx + 1
      cur := [rec]
      curBytes := 2 + blob
      first := false
      nTotal := st.nTotal + 1
      nPart := 1 }
  else
    { st with
      cur := st.cur ++ [rec]
      curBytes := st.curBytes + entry
      first := false
      nTotal := st.nTotal + 1
      nPart := st.nPart + 1 }

/-- `write_json_array_chunked` over a record stream: fold the loop body,
then close the last part. -/
def write_json_array_chunked {α : Type} (sz : α → Nat) (maxBytes : Nat)
    (recs : List α) : ChunkState α :=
  let st := recs.foldl (chunkStep sz maxBytes) (chunkInit α)
  { st with parts := closePart st, cur := [], nPart := 0 }

/-- `f"{i:03d}"`: decimal, left-padded with zeros to width 3. -/
def pad3 (i : Nat) : String :=
  if i < 10 then "00" ++ toString i
  else if i < 100 then "0" ++ toString i
  else toString i

/-- `part_path`: `f"{out_prefix}_part{i:03d}.json"`. -/
def part_path (outPre : String) (i : Nat) : String :=
  outPre ++ "_part" ++ pad3 i ++ ".json"

/-- The returned manifest: `{"total_records": n_total, "parts": [...]}`,
each part listed as its path together with its `records` count. -/
structure ChunkManifest where
  total_records : Nat
  parts : List (String × Nat)
  deriving Repr, DecidableEq

/-- Build the manifest from the final exporter state. -/
def chunkManifest {α : Type} (outPre : String) (st : ChunkState α) :
    ChunkManifest :=
  { total_records := st.nTotal
    parts := st.parts.map (fun p => (part_path outPre p.idx, p.nRecs)) }

/-! ### Exporter invariants -/

/-- Stream-preservation invariant of the exporter loop state, relative to
the records already consumed. -/
def ChunkInvStream {α : Type} (st : ChunkState α) (done : List α) : Prop :=
  (st.parts.map ChunkPart.recs).flatten ++ st.cur = done ∧
  st.nTotal = done.length ∧
  st.nPart = st.cur.length ∧
  (st.parts.map ChunkPart.nRecs).sum + st.nPart = st.nTotal ∧
  st.parts.map ChunkPart.nRecs = st.parts.map (fun p => p.recs.length)

theorem chunkStep_stream {α : Type} (sz : α → Nat) (maxBytes : Nat)
    (st : ChunkState α) (done : List α) (r : α)
    (h : ChunkInvStream st done) :
    ChunkInvStream (chunkStep sz maxBytes st r) (done ++ [r]) := by
  obtain ⟨h1, h2, h3, h4, h5⟩ := h
  unfold chunkStep
  by_cases hc : st.curBytes + (if st.first then sz r else sz r + 2) + 3 > maxBytes
      ∧ st.first = false
  · simp only [if_pos hc]
    refine ⟨?_, ?_, ?_, ?_, ?_⟩
    · have hcl : (List.map ChunkPart.recs (closePart st)).flatten = done := by
        simp [closePart, ← h1]
      simp [hcl]
    · simp [h2]
    · simp
    · have : (List.map ChunkPart.nRecs (closePart st)).sum = st.nTotal := by
        simp [closePart]
        omega
      simp only [this]
    · simp [closePart, h5, h3]
  · simp only [if_neg hc]
    refine ⟨?_, ?_, ?_, ?_, ?_⟩
    · simp only []
      rw [← List.append_assoc, h1]
    · simp [h2]
    · simp [h3]
    · simp only []
      omega
    · exact h5

theorem chunkFold_stream {α : Type} (sz : α → Nat) (maxBytes : Nat)
    (l : List α) (st : ChunkState α) (done : List α)
    (h : ChunkInvStream st done) :
    ChunkInvStream (l.foldl (chunkStep sz maxBytes) st) (done ++ l) := by
  induction l generalizing st done with
  | nil => simpa using h
  | cons a as ih =>
    have := ih (chunkStep sz maxBytes st a) (done ++ [a])
      (chunkStep_stream sz maxBytes st done a h)
    simpa using this

/-- Size invariant: closed parts obey the soft bound, and the open part
either has a single record or still fits with the closing bytes. -/
def ChunkInvSize {α : Type} (maxBytes : Nat) (st : ChunkState α) : Prop :=
  (∀ p ∈ st.parts, p.size ≤ maxBytes ∨ p.recs.length ≤ 1) ∧
  (st.first = true → st.cur = [] ∧ st.curBytes = 2) ∧
  (st.first = false → st.cur.length = 1 ∨ st.curBytes + 3 ≤ maxBytes)

theorem chunkStep_size {α : Type} (sz : α → Nat) (maxBytes : Nat)
    (st : ChunkState α) (r : α)
    (h : ChunkInvSize maxBytes st) :
    ChunkInvSize maxBytes (chunkStep sz maxBytes st r) := by
  obtain ⟨h1, h2, h3⟩ := h
  unfold chunkStep
  by_cases hc : st.curBytes + (if st.first then sz r else sz r + 2) + 3 > maxBytes
      ∧ st.first = false
  · simp only [if_pos hc]
    refine ⟨?_, by simp, by simp⟩
    intro p hp
    simp only [closePart, List.mem_append, List.mem_singleton] at hp
    rcases hp with hp' | hp'
    · exact h1 p hp'
    · subst hp'
      rcases h3 hc.2 with hl | hb
      · right; simpa using hl.le
      · left; simpa using hb
  · simp only [if_neg hc]
    refine ⟨fun p hp => h1 p hp, by simp, ?_⟩
    intro _
    by_cases hf : st.first
    · left
      simp [(h2 hf).1]
    · have hf' : st.first = false := by simpa using hf
      right
      have hn : ¬ st.curBytes + (sz r + 2) + 3 > maxBytes := by
        intro hgt
        exact hc ⟨by simpa [hf'] using hgt, hf'⟩
      simp only [hf']
      simp only [if_neg (by simp : ¬ (false = true))]
      omega

theorem chunkFold_size {α : Type} (sz : α → Nat) (maxBytes : Nat)
    (l : List α) (st : ChunkState α)
    (h : ChunkInvSize maxBytes st) :
    ChunkInvSize maxBytes (l.foldl (chunkStep sz maxBytes) st) := by
  induction l generalizing st with
  | nil => simpa using h
  | cons a as ih => exact ih _ (chunkStep_size sz maxBytes st a h)

/-- C3 (amended form, helper): every part of the final state obeys
`size ≤ maxBytes` or holds at most one record. -/
theorem write_json_array_chunked_soft_bound {α : Type} (sz : α → Nat)
    (maxBytes : Nat) (recs : List α) :
    ∀ p ∈ (write_json_array_chunked sz maxBytes recs).parts,
      p.size ≤ maxBytes ∨ p.recs.length ≤ 1 := by
  intro p hp
  have hinv : ChunkInvSize maxBytes
      (recs.foldl (chunkStep sz maxBytes) (chunkInit α)) :=
    chunkFold_size sz maxBytes recs (chunkInit α)
      ⟨by simp [chunkInit], fun _ => ⟨rfl, rfl⟩, fun h => by simp [chunkInit] at h⟩
  obtain ⟨h1, h2, h3⟩ := hinv
  unfold write_json_array_chunked at hp
  simp only [closePart, List.mem_append, List.mem_singleton] at hp
  rcases hp with hp | hp
  · exact h1 p hp
  · set st := recs.foldl (chunkStep sz maxBytes) (chunkInit α) with hst
    by_cases hf : st.first
    · right
      subst hp
      simp [(h2 hf).1]
    · have hf' : st.first = false := by simpa using hf
      rcases h3 hf' with hl | hb
      · right; subst hp; simpa using hl.le
      · left; subst hp; simpa using hb

/-- C3 (counterexample): the claim "every emitted part file has serialized
byte size ≤ B" fails as stated: with budget 10 and a single record whose
serialization is 100 bytes, the record is written whole and the sole part
is 105 bytes. -/
theorem write_json_array_chunked_hard_bound_counterexample :
    ¬ (∀ p ∈ (write_json_array_chunked (fun _ : Unit => 100) 10 [()]).parts,
        p.size ≤ 10) := by
  decide

/-- C3 (witness): instantiation of the soft bound at the concrete
pathological input. -/
theorem write_json_array_chunked_soft_bound_witness :
    (({ idx := 0, recs := [()], nRecs := 1, size := 105 } : ChunkPart Unit) ∈
        (write_json_array_chunked (fun _ : Unit => 100) 10 [()]).parts) ∧
    (({ idx := 0, recs := [()], nRecs := 1, size := 105 } : ChunkPart Unit).size ≤ 10 ∨
      ({ idx := 0, recs := [()], nRecs := 1, size := 105 } : ChunkPart Unit).recs.length ≤ 1) :=
  ⟨by decide,
   write_json_array_chunked_soft_bound (fun _ : Unit => 100) 10 [()] _ (by decide)⟩

theorem chunkParts_nRecs_eq {α : Type} (ps : List (ChunkPart α))
    (h : ps.map ChunkPart.nRecs = ps.map (fun p => p.recs.length)) :
    ∀ p ∈ ps, p.nRecs = p.recs.length := by
  induction ps with
  | nil => intro p hp; cases hp
  | cons q qs ih =>
    simp only [List.map_cons, List.cons.injEq] at h
    intro p hp
    rcases List.mem_cons.1 hp with rfl | hp'
    · exact h.1
    · exact ih h.2 p hp'

/-- C4: the chunked exporter preserves the record stream: concatenating the
parts' records in manifest order reproduces the input exactly, the
manifest's `total_records` equals the input length, the per-part record
counts sum to it, and the manifest lists each part's path with its record
count. -/
theorem write_json_array_chunked_stream_preservation {α : Type}
    (sz : α → Nat) (maxBytes : Nat) (recs : List α) (outPre : String) :
    ((write_json_array_chunked sz maxBytes recs).parts.map ChunkPart.recs).flatten
        = recs ∧
    (chunkManifest outPre (write_json_array_chunked sz maxBytes recs)).total_records
        = recs.length ∧
    ((chunkManifest outPre (write_json_array_chunked sz maxBytes recs)).parts.map
        Prod.snd).sum = recs.length ∧
    (chunkManifest outPre (write_json_array_chunked sz maxBytes recs)).parts
        = (write_json_array_chunked sz maxBytes recs).parts.map
            (fun p => (part_path outPre p.idx, p.recs.length)) := by
  have hinv : ChunkInvStream
      (recs.foldl (chunkStep sz maxBytes) (chunkInit α)) ([] ++ recs) :=
    chunkFold_stream sz maxBytes recs (chunkInit α) []
      ⟨by simp [chunkInit], by simp [chunkInit], by simp [chunkInit],
       by simp [chunkInit], by simp [chunkInit]⟩
  obtain ⟨h1, h2, h3, h4, h5⟩ := hinv
  set st := recs.foldl (chunkStep sz maxBytes) (chunkInit α) with hst
  simp only [List.nil_append] at h1 h2
  refine ⟨?_, ?_, ?_, ?_⟩
  · show (List.map ChunkPart.recs (closePart st)).flatten = recs
    simp [closePart, h1]
  · exact h2
  · show ((List.map (fun p => (part_path outPre p.idx, p.nRecs))
        (closePart st)).map Prod.snd).sum = recs.length
    rw [List.map_map]
    have hsum : ((closePart st).map
          (Prod.snd ∘ fun p => (part_path outPre p.idx, p.nRecs))).sum
        = ((closePart st).map ChunkPart.nRecs).sum := rfl
    rw [hsum]
    simp only [closePart, List.map_append, List.sum_append]
    simp only [List.map_cons, List.map_nil, List.sum_cons, List.sum_nil]
    omega
  · show List.map (fun p => (part_path outPre p.idx, p.nRecs)) (closePart st)
        = List.map (fun p => (part_path outPre p.idx, p.recs.length)) (closePart st)
    simp only [closePart, List.map_append]
    congr 1
    · refine List.map_congr_left ?_
      intro p hp
      have hp' := chunkParts_nRecs_eq st.parts h5 p hp
      simp [hp']
    · simp [h3]

/-! ## Python string helpers

`pyLower`/`pyUpper`/`pyStrip` model `str.lower`/`str.upper`/`str.strip`
(ASCII inputs), `pyNorm` models `_norm` from utils.py
(`re.sub(r"\s+", " ", s.strip().lower())`), `strContains hay pat` models
`pat in hay`, `pySplitOn` models single-character `str.split(sep)`,
`pyWordSplit` models no-argument `str.split()`, `joinSep` models
`sep.join(...)`, and `pyCapitalize` models `str.capitalize`. -/

def pyLower (s : String) : String := ⟨s.data.map Char.toLower⟩

def pyUpper (s : String) : String := ⟨s.data.map Char.toUpper⟩

def stripChars (l : List Char) : List Char :=
  ((l.dropWhile Char.isWhitespace).reverse.dropWhile Char.isWhitespace).reverse

def pyStrip (s : String) : String := ⟨stripChars s.data⟩

def squishFrom : Bool → List Char → List Char
  | _, [] => []
  | inWS, c :: cs =>
    if c.isWhitespace then squishFrom true cs
    else (if inWS then [' ', c] else [c]) ++ squishFrom false cs

def pyNorm (s : String) : String :=
  ⟨squishFrom false ((s.data.map Char.toLower).dropWhile Char.isWhitespace)⟩

def isPreB : List Char → List Char → Bool
  | [], _ => true
  | _ :: _, [] => false
  | a :: as, b :: bs => a == b && isPreB as bs

def isSubB (u : List Char) : List Char → Bool
  | [] => u.isEmpty
  | b :: bs => isPreB u (b :: bs) || isSubB u bs

def strContains (hay pat : String) : Bool := isSubB pat.data hay.data

def splitChar (c : Char) : List Char → List (List Char)
  | [] => [[]]
  | x :: xs =>
    match splitChar c xs with
    | [] => [[]]
    | h :: t => if x = c then [] :: h :: t else (x :: h) :: t

def pySplitOn (sep : Char) (s : String) : List String :=
  (splitChar sep s.data).map (fun l => ⟨l⟩)

def wordsAux (cur : List Char) : List Char → List (List Char)
  | [] => if cur.isEmpty then [] else [cur.reverse]
  | c :: cs =>
    if c.isWhitespace then
      if cur.isEmpty then wordsAux [] cs else cur.reverse :: wordsAux [] cs
    else wordsAux (c :: cur) cs

def pyWordSplit (s : String) : List String :=
  (wordsAux [] s.data).map (fun l => ⟨l⟩)

def joinSep (sep : String) : List String → String
  | [] => ""
  | [x] => x
  | x :: y :: xs => x ++ sep ++ joinSep sep (y :: xs)

def pyCapitalize (w : String) : String :=
  match w.data with
  | [] => ""
  | c :: cs => ⟨c.toUpper :: cs.map Char.toLower⟩

/-! ## Biosample details and `infer_geo` (biosample.py)

A biosample detail blob is either the parsed record (attributes, title,
organism) or the error tombstone written by `get_biosample_details`; both
are dicts carrying `accession`.  `lat`/`lon` extraction applies the regex
`(-?\d+(?:\.\d+)?)\s*[, ]\s*(-?\d+(?:\.\d+)?)`; the claims never exercise
it, so it is passed in as an oracle `latlonEx` (applied only when the
lat/lon attribute is non-empty, exactly as in the source). -/

structure BsDetails where
  attributes : List (String × String)
  title : String
  organism : String
  accession : String
  error : String
  deriving Repr, DecidableEq

def attrGet (attrs : List (String × String)) (k : String) : Option String :=
  (attrs.find? (fun p => p.1 == k)).map (fun p => p.2)

/-- `for k in keys: if k in attrs and attrs[k]: x = str(attrs[k]).strip(); break` -/
def firstTruthyAttr (attrs : List (String × String)) : List String → String
  | [] => ""
  | k :: ks =>
    match attrGet attrs k with
    | some v => if v ≠ "" then pyStrip v else firstTruthyAttr attrs ks
    | none => firstTruthyAttr attrs ks

def COUNTRY_HINTS : List (String × String) :=
  [("usa", "United States"), ("u.s.a", "United States"),
   ("united states", "United States"), ("uk", "United Kingdom"),
   ("u.k.", "United Kingdom"), ("england", "United Kingdom"),
   ("scotland", "United Kingdom"), ("uae", "United Arab Emirates")]

def hintLookup (k : String) : Option String :=
  (COUNTRY_HINTS.find? (fun p => p.1 == k)).map (fun p => p.2)

def scanHints (blob : String) : List (String × String) → String
  | [] => ""
  | (k, v) :: rest => if strContains blob k then v else scanHints blob rest

structure Geo where
  country : String
  region : String
  city : String
  lat : String
  lon : String
  raw : String
  biosample_accession : String
  deriving Repr, DecidableEq

def geoLocKeys : List String :=
  ["geo_loc_name", "geographic location", "geographic_location", "country",
   "location"]

def latLonKeys : List String :=
  ["lat_lon", "latitude and longitude", "latitude_longitude"]

/-- `infer_geo(biosample_details, fallbacks)`. -/
def infer_geo (latlonEx : String → Option (String × String))
    (bsd : BsDetails) (fallbacks : List String) : Geo :=
  let attrs := bsd.attributes
  let raw_geo := firstTruthyAttr attrs geoLocKeys
  let latlon := firstTruthyAttr attrs latLonKeys
  let latlonPair :=
    if latlon ≠ "" then (latlonEx latlon).getD ("", "") else ("", "")
  let colonParts := (pySplitOn ':' raw_geo).map pyStrip
  let ccr :=
    if raw_geo ≠ "" then
      if colonParts.length ≥ 2 then
        let country := colonParts.headD ""
        let rest := joinSep ":" colonParts.tail
        let bits := ((pySplitOn ',' rest).map pyStrip).filter (fun b => b ≠ "")
        (country,
         if bits.length ≥ 2 then bits.dropLast.getLastD "" else "",
         bits.getLastD "")
      else
        let bits :=
          ((pySplitOn ',' raw_geo).map pyStrip).filter (fun b => b ≠ "")
        (bits.headD "",
         if bits.length ≥ 3 then bits.dropLast.getLastD "" else "",
         if bits.length ≥ 2 then bits.getLastD "" else "")
    else ("", "", "")
  let country0 := ccr.1
  let c_norm := pyNorm country0
  let country1 :=
    match hintLookup c_norm with
    | some v => v
    | none =>
      if country0 ≠ "" then
        joinSep " " ((pyWordSplit country0).map pyCapitalize)
      else country0
  let country2 :=
    if country1 = "" ∧ fallbacks ≠ [] then
      scanHints (pyNorm (joinSep " | " (fallbacks.filter (fun x => x ≠ ""))))
        COUNTRY_HINTS
    else country1
  { country := country2
    region := ccr.2.1
    city := ccr.2.2
    lat := latlonPair.1
    lon := latlonPair.2
    raw := raw_geo
    biosample_accession := bsd.accession }

/-! ## Assay classifier: `classify_assay` (assay.py) -/

def rowGet (r : List (String × String)) (k : String) : String :=
  ((r.find? (fun p => p.1 == k)).map (fun p => p.2)).getD ""

structure AssayResult where
  assay_class : String
  assay_tags : List String
  confidence : String
  rationale : List String
  deriving Repr, DecidableEq

/-- `classify_assay(run_row, sra_title, biosample_details)`: the ordered
rule cascade, first matching rule wins. -/
def classify_assay (run_row : List (String × String)) (sra_title : String)
    (bsd : BsDetails) : AssayResult :=
  let title := pyNorm sra_title
  let attr_blob :=
    pyNorm (joinSep " " (bsd.attributes.map (fun p => p.1 ++ ":" ++ p.2)))
  let strat := pyNorm (rowGet run_row "LibraryStrategy")
  let src := pyNorm (rowGet run_row "LibrarySource")
  let sel := pyNorm (rowGet run_row "LibrarySelection")
  let blob := joinSep " | " [title, attr_blob, strat, src, sel]
  if strContains strat "amplicon" || strContains blob "amplicon" then
    if strContains blob "16s" ||
        (strContains blob "rrna" && strContains blob "16s") then
      { assay_class := "16S", assay_tags := ["amplicon", "16S"],
        confidence := "high", rationale := ["amplicon", "16s"] }
    else if strContains blob "its" then
      { assay_class := "ITS", assay_tags := ["amplicon", "ITS"],
        confidence := "high", rationale := ["amplicon", "its"] }
    else
      { assay_class := "Amplicon", assay_tags := ["amplicon"],
        confidence := "high", rationale := ["amplicon"] }
  else if strat = "rna-seq" || strat = "transcriptome" ||
      strContains blob "rna-seq" || strContains blob "metatranscriptom" then
    { assay_class := "RNA-seq", assay_tags := ["RNA"],
      confidence := "high", rationale := ["rna-seq/metatranscriptome"] }
  else if strat = "wgs" || strat = "metagenomic" ||
      strContains blob "shotgun" || strContains blob "wgs" ||
      strContains blob "metagenom" then
    { assay_class := "WGS", assay_tags := ["shotgun"],
      confidence := "high", rationale := ["wgs/shotgun/metagenomic"] }
  else if strContains sel "pcr" || strContains sel "rrna" then
    if strContains blob "16s" then
      { assay_class := "16S", assay_tags := ["targeted", "16S"],
        confidence := "medium", rationale := ["PCR/rRNA selection", "16s"] }
    else if strContains blob "its" then
      { assay_class := "ITS", assay_tags := ["targeted", "ITS"],
        confidence := "medium", rationale := ["PCR/rRNA selection", "its"] }
    else
      { assay_class := "Amplicon", assay_tags := ["targeted"],
        confidence := "medium", rationale := ["PCR/rRNA selection"] }
  else
    { assay_class := "Unknown", assay_tags := [], confidence := "low",
      rationale := [] }

/-! ### Substring facts used for the classifier -/

theorem isPreB_iff (u : List Char) : ∀ l, isPreB u l = true ↔ u <+: l := by
  induction u with
  | nil => intro l; simp [isPreB]
  | cons a as ih =>
    intro l
    cases l with
    | nil => simp [isPreB]
    | cons b bs =>
      simp [isPreB, List.cons_prefix_cons, ih bs, And.comm]

theorem isSubB_iff (u l : List Char) : isSubB u l = true ↔ u <:+: l := by
  induction l with
  | nil => simp [isSubB, List.isEmpty_iff]
  | cons b bs ih =>
    simp [isSubB, isPreB_iff, ih, List.infix_cons_iff]

theorem infix_append_left {u x : List Char} (y : List Char) (h : u <:+: x) :
    u <:+: x ++ y := by
  obtain ⟨s, t, hh⟩ := h
  exact ⟨s, t ++ y, by rw [← hh]; simp⟩

theorem infix_append_right {u y : List Char} (x : List Char) (h : u <:+: y) :
    u <:+: x ++ y := by
  obtain ⟨s, t, hh⟩ := h
  exact ⟨x ++ s, t, by rw [← hh]; simp⟩

theorem strContains_append_left (x y pat : String)
    (h : strContains x pat = true) : strContains (x ++ y) pat = true := by
  rw [strContains, isSubB_iff] at h ⊢
  have hd : (x ++ y).data = x.data ++ y.data := by simp
  rw [hd]
  exact infix_append_left y.data h

theorem strContains_joinSep (sep pat x : String) (rest : List String)
    (h : strContains x pat = true) :
    strContains (joinSep sep (x :: rest)) pat = true := by
  cases rest with
  | nil => simpa [joinSep] using h
  | cons y ys =>
    show strContains (x ++ sep ++ joinSep sep (y :: ys)) pat = true
    exact strContains_append_left _ _ _ (strContains_append_left _ _ _ h)

theorem squishFrom_append_nonws (xs r : List Char)
    (hx : ∀ c ∈ xs, c.isWhitespace = false) :
    squishFrom false (xs ++ r) = xs ++ squishFrom false r := by
  induction xs with
  | nil => rfl
  | cons c cs ih =>
    have hc := hx c (List.mem_cons_self c cs)
    have hcs := ih (fun d hd => hx d (List.mem_cons_of_mem c hd))
    simp [squishFrom, hc, hcs]

theorem infix_squishFrom (u : List Char) (hne : u ≠ [])
    (hws : ∀ c ∈ u, c.isWhitespace = false) :
    ∀ l : List Char, u <:+: l → ∀ b, u <:+: squishFrom b l := by
  intro l
  induction l generalizing u with
  | nil =>
    intro h
    exact absurd (List.eq_nil_of_infix_nil h) hne
  | cons c cs ih =>
    intro h b
    rcases List.infix_cons_iff.1 h with hpre | hinf
    · cases u with
      | nil => exact absurd rfl hne
      | cons a as =>
        obtain ⟨rfl, haspre⟩ := List.cons_prefix_cons.1 hpre
        obtain ⟨t, ht⟩ := haspre
        have hcws : a.isWhitespace = false := hws a (List.mem_cons_self a as)
        have hasws : ∀ d ∈ as, d.isWhitespace = false :=
          fun d hd => hws d (List.mem_cons_of_mem a hd)
        have hsq : squishFrom b (a :: cs)
            = (if b then [' ', a] else [a]) ++ squishFrom false cs := by
          simp [squishFrom, hcws]
        rw [hsq, ← ht, squishFrom_append_nonws as t hasws]
        cases b with
        | true => exact ⟨[' '], squishFrom false t, by simp⟩
        | false => exact ⟨[], squishFrom false t, by simp⟩
    · have hrec := ih u hne hws hinf
      by_cases hc : c.isWhitespace
      · have : squishFrom b (c :: cs) = squishFrom true cs := by
          simp [squishFrom, hc]
        rw [this]
        exact hrec true
      · have hc' : c.isWhitespace = false := by simpa using hc
        have : squishFrom b (c :: cs)
            = (if b then [' ', c] else [c]) ++ squishFrom false cs := by
          simp [squishFrom, hc']
        rw [this]
        exact infix_append_right _ (hrec false)

theorem infix_dropWhileWS (u : List Char) (hne : u ≠ [])
    (hws : ∀ c ∈ u, c.isWhitespace = false) :
    ∀ l : List Char, u <:+: l → u <:+: l.dropWhile Char.isWhitespace := by
  intro l
  induction l with
  | nil => intro h; simpa using h
  | cons c cs ih =>
    intro h
    by_cases hc : c.isWhitespace
    · rw [List.dropWhile_cons]
      simp only [hc, if_true]
      apply ih
      rcases List.infix_cons_iff.1 h with hpre | hinf
      · exfalso
        cases u with
        | nil => exact hne rfl
        | cons a as =>
          obtain ⟨rfl, -⟩ := List.cons_prefix_cons.1 hpre
          have := hws a (List.mem_cons_self a as)
          rw [this] at hc
          exact Bool.false_ne_true hc
      · exact hinf
    · rw [List.dropWhile_cons]
      simp only [hc, if_false]
      exact h

/-- If `u` (non-empty, whitespace-free) occurs in the lowercased characters
of `s`, it occurs in `_norm(s)`. -/
theorem strContains_pyNorm (s : String) (u : List Char) (hne : u ≠ [])
    (hws : ∀ c ∈ u, c.isWhitespace = false)
    (h : u <:+: s.data.map Char.toLower) :
    strContains (pyNorm s) ⟨u⟩ = true := by
  rw [strContains, isSubB_iff]
  show u <:+: squishFrom false ((s.data.map Char.toLower).dropWhile Char.isWhitespace)
  exact infix_squishFrom u hne hws _ (infix_dropWhileWS u hne hws _ h) false

/-- C6 (counterexample): on the biosample location `"Tokyo, Japan"` the code
returns country `"Tokyo"` and city `"Japan"` (comma-separated strings take
the left-most segment as country), not country `"Japan"` / city `"Tokyo"`
as claimed. -/
theorem infer_geo_tokyo_counterexample :
    ¬ ((infer_geo (fun _ => none)
          { attributes := [("geo_loc_name", "Tokyo, Japan")], title := "",
            organism := "", accession := "", error := "" } []).country = "Japan" ∧
       (infer_geo (fun _ => none)
          { attributes := [("geo_loc_name", "Tokyo, Japan")], title := "",
            organism := "", accession := "", error := "" } []).city = "Tokyo") := by
  decide

/-- C6 (amended): `infer_geo` on `"USA: New York City"` gives country
`"United States"` (via the alias table) and city `"New York City"`; on
`"Tokyo, Japan"` it gives country `"Tokyo"` and city `"Japan"` (the code's
comma asymmetry: left-most segment is the country); on an empty location
field every geo field is empty.  The result never depends on the lat/lon
extractor since no lat/lon attribute is present. -/
theorem infer_geo_edge_cases (latlonEx : String → Option (String × String)) :
    infer_geo latlonEx
        { attributes := [("geo_loc_name", "USA: New York City")], title := "",
          organism := "", accession := "", error := "" } [] =
      { country := "United States", region := "", city := "New York City",
        lat := "", lon := "", raw := "USA: New York City",
        biosample_accession := "" } ∧
    infer_geo latlonEx
        { attributes := [("geo_loc_name", "Tokyo, Japan")], title := "",
          organism := "", accession := "", error := "" } [] =
      { country := "Tokyo", region := "", city := "Japan", lat := "",
        lon := "", raw := "Tokyo, Japan", biosample_accession := "" } ∧
    infer_geo latlonEx
        { attributes := [("geo_loc_name", "")], title := "", organism := "",
          accession := "", error := "" } [] =
      { country := "", region := "", city := "", lat := "", lon := "",
        raw := "", biosample_accession := "" } := by
  refine ⟨rfl, rfl, rfl⟩

/-- C7: `classify_assay` is a Lean function, hence deterministic, and on a
run row with `LibraryStrategy = "AMPLICON"` and any title containing
`"16S rRNA"` (any biosample details) the first cascade rule fires with its
16S specialization: class `"16S"` at confidence `"high"`. -/
theorem classify_assay_amplicon_16s (title : String) (bsd : BsDetails)
    (h : strContains title "16S rRNA" = true) :
    classify_assay [("LibraryStrategy", "AMPLICON")] title bsd =
      { assay_class := "16S", assay_tags := ["amplicon", "16S"],
        confidence := "high", rationale := ["amplicon", "16s"] } := by
  have h1 : "16S rRNA".data <:+: title.data := (isSubB_iff _ _).1 h
  have h2 : "16S rRNA".data.map Char.toLower <:+: title.data.map Char.toLower :=
    h1.map _
  have h3 : "16s rrna".data <:+: title.data.map Char.toLower := by
    have he : "16S rRNA".data.map Char.toLower = "16s rrna".data := by decide
    rwa [he] at h2
  have h4 : "16s".data <:+: "16s rrna".data :=
    (isSubB_iff _ _).1 (by decide)
  have hn : strContains (pyNorm title) "16s" = true := by
    have := strContains_pyNorm title "16s".data (by decide) (by decide)
      (h4.trans h3)
    exact this
  have hblob : strContains
      (joinSep " | " [pyNorm title,
        pyNorm (joinSep " "
          (bsd.attributes.map (fun p => p.1 ++ ":" ++ p.2))),
        pyNorm (rowGet [("LibraryStrategy", "AMPLICON")] "LibraryStrategy"),
        pyNorm (rowGet [("LibraryStrategy", "AMPLICON")] "LibrarySource"),
        pyNorm (rowGet [("LibraryStrategy", "AMPLICON")] "LibrarySelection")])
      "16s" = true :=
    strContains_joinSep _ _ _ _ hn
  have hstrat : strContains
      (pyNorm (rowGet [("LibraryStrategy", "AMPLICON")] "LibraryStrategy"))
      "amplicon" = true := by decide
  simp only [classify_assay]
  rw [hstrat, hblob]
  simp

/-- C7 (witness): the 16S rule at a concrete title and empty biosample
details. -/
theorem classify_assay_amplicon_16s_witness :
    strContains "urban 16S rRNA survey" "16S rRNA" = true ∧
    classify_assay [("LibraryStrategy", "AMPLICON")] "urban 16S rRNA survey"
        { attributes := [], title := "", organism := "", accession := "",
          error := "" } =
      { assay_class := "16S", assay_tags := ["amplicon", "16S"],
        confidence := "high", rationale := ["amplicon", "16s"] } :=
  ⟨by decide, classify_assay_amplicon_16s _ _ (by decide)⟩

/-! ## NCBI oracle and the cache layer (ncbi.py, biosample.py, bioproject.py)

External E-utilities calls are a deterministic oracle: `runinfo u` stands
for `parse_runinfo_rows(u)` (efetch + CSV parse), `biosample a` for
`efetch_biosample_xml` + `parse_biosample_attributes_from_xml`,
`bpSearch a` for `esearch_any("bioproject", f"{a}[Accession]")`, and
`bpSummary uid` for `esummary` + `parse_bioproject_esummary(uid)` (which
can itself raise on unexpected formats).  An `Except.error` is a raised
exception at that call site.  Cache-layer functions return the result, the
updated caches, and the number of external fetches performed. -/

abbrev Row := List (String × String)

structure BsParsed where
  attributes : List (String × String)
  title : String
  organism : String
  deriving Repr, DecidableEq

structure BpDoc where
  uid : String
  accession : String
  title : String
  deriving Repr, DecidableEq

/-- A bioproject cache value: the empty dict `{}`, a tombstone dict
`{"accession": a, "uid": "", "error": tag}`, or a parsed summary. -/
inductive BpVal where
  | emptyV : BpVal
  | tomb : String → String → BpVal
  | doc : BpDoc → BpVal
  deriving Repr, DecidableEq

structure NcbiOracle where
  runinfo : String → Except String (List Row)
  biosample : String → Except String BsParsed
  bpSearch : String → Except String (List String)
  bpSummary : String → Except String BpDoc

/-- The three persistent caches (`biosample_cache`, `bp_uid_cache`,
`bp_cache`), each a dict modelled as an association list; assignment only
ever happens on keys checked to be absent, hence appends. -/
structure Caches where
  bs : List (String × BsDetails)
  uc : List (String × String)
  bp : List (String × BpVal)
  deriving Repr, DecidableEq

def alFind {α : Type} (l : List (String × α)) (k : String) : Option α :=
  (l.find? (fun p => p.1 == k)).map (fun p => p.2)

def emptyBs : BsDetails :=
  { attributes := [], title := "", organism := "", accession := "", error := "" }

/-- `get_biosample_details(accession, biosample_cache)`: strip, return `{}`
on empty, serve cache hits, otherwise fetch; failures are caught and cached
as an error tombstone `{"accession": acc, "error": str(e)}`. -/
def get_biosample_details (O : NcbiOracle) (acc : String) (c : Caches) :
    BsDetails × Caches × Nat :=
  let a := pyStrip acc
  if a = "" then (emptyBs, c, 0)
  else
    match alFind c.bs a with
    | some v => (v, c, 0)
    | none =>
      match O.biosample a with
      | .ok p =>
        let parsed : BsDetails :=
          { attributes := p.attributes, title := p.title,
            organism := p.organism, accession := a, error := "" }
        (parsed, { c with bs := c.bs ++ [(a, parsed)] }, 1)
      | .error e =>
        let t : BsDetails :=
          { attributes := [], title := "", organism := "", accession := a,
            error := e }
        (t, { c with bs := c.bs ++ [(a, t)] }, 1)

/-- `bioproject_accession_to_uid(accession, uid_cache)`: `None` models a
falsy return (Python `None` or `""`); an `esearch` failure propagates as an
exception and nothing is cached. -/
def bioproject_accession_to_uid (O : NcbiOracle) (acc : String) (c : Caches) :
    Except String (Option String) × Caches × Nat :=
  let a := pyUpper (pyStrip acc)
  if a = "" then (.ok none, c, 0)
  else
    match alFind c.uc a with
    | some v => (.ok (if v = "" then none else some v), c, 0)
    | none =>
      match O.bpSearch a with
      | .error e => (.error e, c, 1)
      | .ok ids =>
        let uid := ids.headD ""
        (.ok (if uid = "" then none else some uid),
         { c with uc := c.uc ++ [(a, uid)] }, 1)

def isWordChar (c : Char) : Bool := c.isAlphanum || c = '_'

/-- `BIOPROJECT_RE.match(s)` for `re.compile(r"\bPRJ(?:NA|EB|DB)\d+\b", re.I)`:
anchored at the start, case-insensitive `PRJ(NA|EB|DB)`, one or more
digits, then a word boundary (end of string or a non-word character after
the maximal digit run). -/
def matchBioproject (s : String) : Bool :=
  match s.data with
  | c0 :: c1 :: c2 :: c3 :: c4 :: rest =>
    (c0.toUpper = 'P' && c1.toUpper = 'R' && c2.toUpper = 'J') &&
    ((c3.toUpper = 'N' && c4.toUpper = 'A') ||
     (c3.toUpper = 'E' && c4.toUpper = 'B') ||
     (c3.toUpper = 'D' && c4.toUpper = 'B')) &&
    (match rest with
     | [] => false
     | d :: ds =>
       d.isDigit &&
       (let after := ds.dropWhile Char.isDigit
        after.isEmpty || !(isWordChar (after.headD ' '))))
  | _ => false

/-- `details["accession"] = details.get("accession") or accession` -/
def bpFix (a : String) (d : BpDoc) : BpDoc :=
  { d with accession := if d.accession ≠ "" then d.accession else a }

/-- `get_bioproject_details(accession, bp_cache, uid_cache)`: `{}` on empty
accession, cache hits served, `invalid_accession` and `uid_not_found`
tombstones cached; a fetch error inside the uid search or the esummary
parse propagates as an exception and is NOT cached. -/
def get_bioproject_details (O : NcbiOracle) (acc : String) (c : Caches) :
    Except String BpVal × Caches × Nat :=
  let a := pyUpper (pyStrip acc)
  if a = "" then (.ok .emptyV, c, 0)
  else
    match alFind c.bp a with
    | some v => (.ok v, c, 0)
    | none =>
      if matchBioproject a = false then
        let t := BpVal.tomb a "invalid_accession"
        (.ok t, { c with bp := c.bp ++ [(a, t)] }, 0)
      else
        match bioproject_accession_to_uid O a c with
        | (.error e, c1, k1) => (.error e, c1, k1)
        | (.ok none, c1, k1) =>
          let t := BpVal.tomb a "uid_not_found"
          (.ok t, { c1 with bp := c1.bp ++ [(a, t)] }, k1)
        | (.ok (some uid), c1, k1) =>
          match O.bpSummary uid with
          | .error e => (.error e, c1, k1 + 1)
          | .ok d =>
            let details := BpVal.doc (bpFix a d)
            (.ok details, { c1 with bp := c1.bp ++ [(a, details)] }, k1 + 1)

/-! ## Per-uid record building: `build_srr_records_for_sra_uid` (ingest.py)

The record's constant-shaped URL, debug and timestamp fields are at the
I/O boundary and omitted from the embedded record. -/

structure SraSummary where
  uid : String
  title : String
  bioproject_guess : String
  deriving Repr, DecidableEq

structure SrrRecord where
  srr : String
  sra_uid : String
  title : String
  runinfo_row : Row
  geo : Geo
  assay : AssayResult
  bioproject : BpVal
  deriving Repr, DecidableEq

structure BuildCfg where
  latlonEx : String → Option (String × String)
  fetchBs : Bool
  fetchBp : Bool
  maxRows : Nat

/-- The record's BioProject key: the row's `BioProject` field
(strip + upper), falling back to the summary's `bioproject_guess`. -/
def rowPrj (guess : String) (r : Row) : String :=
  let prj0 := pyUpper (pyStrip (rowGet r "BioProject"))
  if prj0 = "" ∧ guess ≠ "" then pyUpper (pyStrip guess) else prj0

/-- The dict appended to `out` for one runinfo row (geo inference over the
fixed fallback fields, assay classification, and the looked-up bioproject
details). -/
def mkSrrRecord (latlonEx : String → Option (String × String))
    (sraUid title : String) (r : Row) (bsd : BsDetails) (bp : BpVal) :
    SrrRecord :=
  { srr := pyStrip (rowGet r "Run")
    sra_uid := sraUid
    title := title
    runinfo_row := r
    geo := infer_geo latlonEx bsd
      [title, rowGet r "SampleName", rowGet r "Sample", rowGet r "Study",
       rowGet r "BioProject"]
    assay := classify_assay r title bsd
    bioproject := bp }

/-- One iteration of the `for r in rows` loop of
`build_srr_records_for_sra_uid`: `none` is a `continue` (blank Run), an
`Except.error` aborts the whole uid (losing earlier rows) but keeps cache
mutations. -/
def buildRow (O : NcbiOracle) (cfg : BuildCfg) (sraUid title guess : String)
    (r : Row) (c : Caches) : Except String (Option SrrRecord) × Caches :=
  let srr := pyStrip (rowGet r "Run")
  if srr = "" then (.ok none, c)
  else
    let bsAcc := pyStrip (rowGet r "BioSample")
    let bsStep :=
      if cfg.fetchBs ∧ bsAcc ≠ "" then
        let g := get_biosample_details O bsAcc c
        (g.1, g.2.1)
      else (emptyBs, c)
    let prj := rowPrj guess r
    if cfg.fetchBp ∧ prj ≠ "" ∧ matchBioproject prj = true then
      match get_bioproject_details O prj bsStep.2 with
      | (.error e, c2, _) => (.error e, c2)
      | (.ok v, c2, _) =>
        (.ok (some (mkSrrRecord cfg.latlonEx sraUid title r bsStep.1 v)), c2)
    else
      (.ok (some (mkSrrRecord cfg.latlonEx sraUid title r bsStep.1 .emptyV)),
       bsStep.2)

def buildRows (O : NcbiOracle) (cfg : BuildCfg) (sraUid title guess : String) :
    List Row → Caches → Except String (List SrrRecord) × Caches
  | [], c => (.ok [], c)
  | r :: rs, c =>
    match buildRow O cfg sraUid title guess r c with
    | (.error e, c') => (.error e, c')
    | (.ok orec, c') =>
      match buildRows O cfg sraUid title guess rs c' with
      | (.error e, c'') => (.error e, c'')
      | (.ok recs, c'') => (.ok (orec.toList ++ recs), c'')

/-- `build_srr_records_for_sra_uid`: runinfo fetch (with the `max_rows`
truncation of `parse_runinfo_rows`), then the row loop. -/
def build_srr_records_for_sra_uid (O : NcbiOracle) (cfg : BuildCfg)
    (sraUid : String) (ssum : SraSummary) (c : Caches) :
    Except String (List SrrRecord) × Caches :=
  match O.runinfo sraUid with
  | .error e => (.error e, c)
  | .ok rows0 =>
    let rows := if cfg.maxRows ≠ 0 ∧ rows0.length > cfg.maxRows then
      rows0.take cfg.maxRows else rows0
    buildRows O cfg sraUid (pyStrip ssum.title) ssum.bioproject_guess rows c

/-! ## Batch ingestion: `ingest_uids_to_srr` (ingest.py) -/

structure IngestState where
  seenSra : List String
  seenSrr : List String
  caches : Caches
  deriving Repr, DecidableEq

structure IngestResult where
  added : List SrrRecord
  sraMarks : List String
  srrMarks : List String
  okCount : Nat
  errCount : Nat
  skipSeen : Nat
  state : IngestState
  deriving Repr, DecidableEq

/-- The inner `for r in srr_rows` loop: skip blank runs, skip runs already
in `seen_srr` (counting `skip_seen_srr`), otherwise emit the record and
mark the run seen immediately. -/
def emitRows : List SrrRecord → List String →
    List SrrRecord × List String × List String × Nat
  | [], seen => ([], [], seen, 0)
  | r :: rs, seen =>
    let srr := pyStrip r.srr
    if srr = "" then emitRows rs seen
    else if seen.contains srr then
      let t := emitRows rs seen
      (t.1, t.2.1, t.2.2.1, t.2.2.2 + 1)
    else
      let t := emitRows rs (seen ++ [srr])
      (r :: t.1, srr :: t.2.1, t.2.2.1, t.2.2.2)

def summaryFor (sums : List (String × SraSummary)) (uid : String) :
    SraSummary :=
  (alFind sums uid).getD { uid := uid, title := "", bioproject_guess := "" }

/-- The `for uid in new_uids` loop of `ingest_uids_to_srr`: a per-uid
exception is caught, counted in `sra_uid_errors`, and the loop continues;
on success the emitted runs are appended, and the uid marked seen. -/
def ingestLoop (O : NcbiOracle) (cfg : BuildCfg)
    (sums : List (String × SraSummary)) :
    List String → IngestState → IngestResult
  | [], st =>
    { added := [], sraMarks := [], srrMarks := [], okCount := 0,
      errCount := 0, skipSeen := 0, state := st }
  | uid :: rest, st =>
    match build_srr_records_for_sra_uid O cfg uid (summaryFor sums uid)
        st.caches with
    | (.error _, c') =>
      let res := ingestLoop O cfg sums rest { st with caches := c' }
      { res with errCount := res.errCount + 1 }
    | (.ok rows, c') =>
      let em := emitRows rows st.seenSrr
      let res := ingestLoop O cfg sums rest
        { seenSra := st.seenSra ++ [uid], seenSrr := em.2.2.1, caches := c' }
      { res with
        added := em.1 ++ res.added
        sraMarks := uid :: res.sraMarks
        srrMarks := em.2.1 ++ res.srrMarks
        okCount := res.okCount + 1
        skipSeen := em.2.2.2 + res.skipSeen }

/-- `ingest_uids_to_srr`: filter out uids already in `seen_sra`
(`new_uids`, computed up front), then run the loop; the seen-id files
receive exactly `sra_mark_seen` / `srr_mark_seen` (via `append_lines`,
which drops empty strings). -/
def ingest_uids_to_srr (O : NcbiOracle) (cfg : BuildCfg) (uids : List String)
    (sums : List (String × SraSummary)) (st : IngestState) : IngestResult :=
  ingestLoop O cfg sums (uids.filter (fun u => !(st.seenSra.contains u))) st

/-! ### Deterministic outcomes of the cache layer

Because the oracle is a fixed function, every lookup has a deterministic
outcome independent of cache state; consistency says every cache entry
stores exactly that outcome for its key (which is how these caches are
populated to begin with). -/

def bsOutcome (O : NcbiOracle) (a : String) : BsDetails :=
  match O.biosample a with
  | .ok p =>
    { attributes := p.attributes, title := p.title, organism := p.organism,
      accession := a, error := "" }
  | .error e =>
    { attributes := [], title := "", organism := "", accession := a,
      error := e }

def bsTop (O : NcbiOracle) (acc : String) : BsDetails :=
  if pyStrip acc = "" then emptyBs else bsOutcome O (pyStrip acc)

def uidOutcome (O : NcbiOracle) (a : String) : Except String String :=
  match O.bpSearch a with
  | .error e => .error e
  | .ok ids => .ok (ids.headD "")

def uidTop (O : NcbiOracle) (acc : String) : Except String (Option String) :=
  let a := pyUpper (pyStrip acc)
  if a = "" then .ok none
  else
    match uidOutcome O a with
    | .error e => .error e
    | .ok u => .ok (if u = "" then none else some u)

def bpOutcome (O : NcbiOracle) (a : String) : Except String BpVal :=
  if matchBioproject a = false then .ok (.tomb a "invalid_accession")
  else
    let a2 := pyUpper (pyStrip a)
    if a2 = "" then .ok (.tomb a "uid_not_found")
    else
      match uidOutcome O a2 with
      | .error e => .error e
      | .ok u =>
        if u = "" then .ok (.tomb a "uid_not_found")
        else
          match O.bpSummary u with
          | .error e => .error e
          | .ok d => .ok (.doc (bpFix a d))

def bpTop (O : NcbiOracle) (acc : String) : Except String BpVal :=
  let a := pyUpper (pyStrip acc)
  if a = "" then .ok .emptyV else bpOutcome O a

/-- Every cache entry stores its key's deterministic outcome. -/
def CachesOk (O : NcbiOracle) (c : Caches) : Prop :=
  (∀ p ∈ c.bs, p.2 = bsOutcome O p.1) ∧
  (∀ p ∈ c.uc, uidOutcome O p.1 = .ok p.2) ∧
  (∀ p ∈ c.bp, bpOutcome O p.1 = .ok p.2)

/-- Key-set growth between cache states. -/
def CachesLe (c c' : Caches) : Prop :=
  (∀ k, (alFind c.bs k).isSome → (alFind c'.bs k).isSome) ∧
  (∀ k, (alFind c.uc k).isSome → (alFind c'.uc k).isSome) ∧
  (∀ k, (alFind c.bp k).isSome → (alFind c'.bp k).isSome)

theorem CachesLe.refl (c : Caches) : CachesLe c c :=
  ⟨fun _ h => h, fun _ h => h, fun _ h => h⟩

theorem CachesLe.trans {a b c : Caches} (h1 : CachesLe a b)
    (h2 : CachesLe b c) : CachesLe a c :=
  ⟨fun k h => h2.1 k (h1.1 k h), fun k h => h2.2.1 k (h1.2.1 k h),
   fun k h => h2.2.2 k (h1.2.2 k h)⟩

theorem alFind_mem {α : Type} {l : List (String × α)} {k : String} {v : α}
    (h : alFind l k = some v) : (k, v) ∈ l := by
  unfold alFind at h
  cases hf : l.find? (fun p => p.1 == k) with
  | none => rw [hf] at h; cases h
  | some p =>
    rw [hf] at h
    have hm := List.mem_of_find?_eq_some hf
    have hp := List.find?_some hf
    cases p with
    | mk p1 p2 =>
      simp only [beq_iff_eq] at hp
      have hv : p2 = v := by simpa using h
      subst hp; subst hv
      exact hm

theorem alFind_append_some {α : Type} {l : List (String × α)} {k : String}
    {v : α} (m : List (String × α)) (h : alFind l k = some v) :
    alFind (l ++ m) k = some v := by
  unfold alFind at h ⊢
  rw [List.find?_append]
  cases hf : l.find? (fun p => p.1 == k) with
  | none => rw [hf] at h; cases h
  | some p =>
    rw [hf] at h
    try rw [hf]
    exact h

theorem alFind_append_none {α : Type} {l : List (String × α)} {k : String}
    (m : List (String × α)) (h : alFind l k = none) :
    alFind (l ++ m) k = alFind m k := by
  unfold alFind at h ⊢
  rw [List.find?_append]
  cases hf : l.find? (fun p => p.1 == k) with
  | none =>
    try rw [hf]
    rfl
  | some p => rw [hf] at h; cases h

theorem alFind_singleton {α : Type} (k k' : String) (v : α) :
    alFind [(k, v)] k' = if k = k' then some v else none := by
  unfold alFind
  by_cases h : k = k'
  · simp [List.find?, h]
  · have hb : (k == k') = false := by simp [h]
    simp [List.find?, hb, h]

theorem alFind_isSome_append {α : Type} (l m : List (String × α))
    (k : String) (h : (alFind l k).isSome) : (alFind (l ++ m) k).isSome := by
  cases hf : alFind l k with
  | none => rw [hf] at h; cases h
  | some v => rw [alFind_append_some m hf]; rfl

theorem CachesOk.bs_val {O : NcbiOracle} {c : Caches} (h : CachesOk O c)
    {k : String} {v : BsDetails} (hf : alFind c.bs k = some v) :
    v = bsOutcome O k :=
  h.1 (k, v) (alFind_mem hf)

theorem CachesOk.uc_val {O : NcbiOracle} {c : Caches} (h : CachesOk O c)
    {k : String} {v : String} (hf : alFind c.uc k = some v) :
    uidOutcome O k = .ok v :=
  h.2.1 (k, v) (alFind_mem hf)

theorem CachesOk.bp_val {O : NcbiOracle} {c : Caches} (h : CachesOk O c)
    {k : String} {v : BpVal} (hf : alFind c.bp k = some v) :
    bpOutcome O k = .ok v :=
  h.2.2 (k, v) (alFind_mem hf)

/-! ### Cache-layer characterization lemmas -/

/-- The biosample lookup for `acc` will touch no state: empty accession or
already cached. -/
def bsSettled (acc : String) (c : Caches) : Prop :=
  pyStrip acc = "" ∨ (alFind c.bs (pyStrip acc)).isSome

theorem get_biosample_details_spec (O : NcbiOracle) (acc : String)
    (c : Caches) (h : CachesOk O c) :
    (get_biosample_details O acc c).1 = bsTop O acc ∧
    CachesOk O (get_biosample_details O acc c).2.1 ∧
    CachesLe c (get_biosample_details O acc c).2.1 ∧
    (get_biosample_details O acc c).2.1.uc = c.uc ∧
    (get_biosample_details O acc c).2.1.bp = c.bp ∧
    bsSettled acc (get_biosample_details O acc c).2.1 := by
  by_cases ha : pyStrip acc = ""
  · have hres : get_biosample_details O acc c = (emptyBs, c, 0) := by
      unfold get_biosample_details; simp [ha]
    rw [hres]
    refine ⟨?_, h, CachesLe.refl c, rfl, rfl, Or.inl ha⟩
    unfold bsTop
    rw [if_pos ha]
  · cases hf : alFind c.bs (pyStrip acc) with
    | some v =>
      have hres : get_biosample_details O acc c = (v, c, 0) := by
        unfold get_biosample_details; simp [ha, hf]
      rw [hres]
      refine ⟨?_, h, CachesLe.refl c, rfl, rfl, Or.inr (by rw [hf]; rfl)⟩
      rw [h.bs_val hf]
      unfold bsTop
      rw [if_neg ha]
    | none =>
      have hout : bsTop O acc = bsOutcome O (pyStrip acc) := by
        unfold bsTop; rw [if_neg ha]
      have hres : get_biosample_details O acc c =
          (bsOutcome O (pyStrip acc),
           { c with bs := c.bs ++ [(pyStrip acc, bsOutcome O (pyStrip acc))] },
           1) := by
        unfold get_biosample_details bsOutcome
        cases ho : O.biosample (pyStrip acc) with
        | ok p => simp [ha, hf, ho]
        | error e => simp [ha, hf, ho]
      rw [hres]
      refine ⟨hout.symm, ⟨?_, h.2.1, h.2.2⟩,
        ⟨fun k hk => alFind_isSome_append _ _ k hk, fun _ hk => hk,
         fun _ hk => hk⟩, rfl, rfl, Or.inr ?_⟩
      · intro q hq
        rcases List.mem_append.1 hq with hq' | hq'
        · exact h.1 q hq'
        · simp only [List.mem_singleton] at hq'
          subst hq'
          rfl
      · rw [alFind_append_none _ hf, alFind_singleton]
        simp

theorem get_biosample_details_settled (O : NcbiOracle) (acc : String)
    (c : Caches) (h : CachesOk O c) (hs : bsSettled acc c) :
    get_biosample_details O acc c = (bsTop O acc, c, 0) := by
  unfold get_biosample_details bsTop
  by_cases ha : pyStrip acc = ""
  · simp [ha]
  · rcases hs with ha' | hf
    · exact absurd ha' ha
    · obtain ⟨v, hv⟩ := Option.isSome_iff_exists.1 hf
      simp only [if_neg ha, hv]
      rw [h.bs_val hv]

/-- The uid lookup for `acc` will touch no cache state: empty key, cached,
or a deterministically failing search (which caches nothing). -/
def uidSettled (O : NcbiOracle) (acc : String) (c : Caches) : Prop :=
  pyUpper (pyStrip acc) = "" ∨
  (alFind c.uc (pyUpper (pyStrip acc))).isSome ∨
  (∃ e, uidOutcome O (pyUpper (pyStrip acc)) = .error e)

theorem bioproject_accession_to_uid_spec (O : NcbiOracle) (acc : String)
    (c : Caches) (h : CachesOk O c) :
    (bioproject_accession_to_uid O acc c).1 = uidTop O acc ∧
    CachesOk O (bioproject_accession_to_uid O acc c).2.1 ∧
    CachesLe c (bioproject_accession_to_uid O acc c).2.1 ∧
    (bioproject_accession_to_uid O acc c).2.1.bs = c.bs ∧
    (bioproject_accession_to_uid O acc c).2.1.bp = c.bp ∧
    uidSettled O acc (bioproject_accession_to_uid O acc c).2.1 := by
  by_cases ha : pyUpper (pyStrip acc) = ""
  · have hres : bioproject_accession_to_uid O acc c = (.ok none, c, 0) := by
      unfold bioproject_accession_to_uid; simp [ha]
    rw [hres]
    refine ⟨?_, h, CachesLe.refl c, rfl, rfl, Or.inl ha⟩
    unfold uidTop
    rw [if_pos ha]
  · cases hf : alFind c.uc (pyUpper (pyStrip acc)) with
    | some v =>
      have hres : bioproject_accession_to_uid O acc c =
          (.ok (if v = "" then none else some v), c, 0) := by
        unfold bioproject_accession_to_uid; simp [ha, hf]
      rw [hres]
      refine ⟨?_, h, CachesLe.refl c, rfl, rfl, Or.inr (Or.inl (by rw [hf]; rfl))⟩
      unfold uidTop
      rw [if_neg ha, h.uc_val hf]
    | none =>
      cases ho : O.bpSearch (pyUpper (pyStrip acc)) with
      | error e =>
        have hres : bioproject_accession_to_uid O acc c = (.error e, c, 1) := by
          unfold bioproject_accession_to_uid; simp [ha, hf, ho]
        have huo : uidOutcome O (pyUpper (pyStrip acc)) = .error e := by
          unfold uidOutcome; rw [ho]
        rw [hres]
        refine ⟨?_, h, CachesLe.refl c, rfl, rfl,
          Or.inr (Or.inr ⟨e, huo⟩)⟩
        unfold uidTop
        rw [if_neg ha, huo]
      | ok ids =>
        have huo : uidOutcome O (pyUpper (pyStrip acc)) = .ok (ids.headD "") := by
          unfold uidOutcome; rw [ho]
        have hres : bioproject_accession_to_uid O acc c =
            (.ok (if ids.headD "" = "" then none else some (ids.headD "")),
             { c with uc := c.uc ++ [(pyUpper (pyStrip acc), ids.headD "")] },
             1) := by
          unfold bioproject_accession_to_uid; simp [ha, hf, ho]
        rw [hres]
        refine ⟨?_, ⟨h.1, ?_, h.2.2⟩,
          ⟨fun _ hk => hk, fun k hk => alFind_isSome_append _ _ k hk,
           fun _ hk => hk⟩, rfl, rfl, Or.inr (Or.inl ?_)⟩
        · unfold uidTop
          rw [if_neg ha, huo]
        · intro q hq
          rcases List.mem_append.1 hq with hq' | hq'
          · exact h.2.1 q hq'
          · simp only [List.mem_singleton] at hq'
            subst hq'
            exact huo
        · rw [alFind_append_none _ hf, alFind_singleton]
          simp

theorem bioproject_accession_to_uid_settled (O : NcbiOracle) (acc : String)
    (c : Caches) (h : CachesOk O c) (hs : uidSettled O acc c) :
    (bioproject_accession_to_uid O acc c).1 = uidTop O acc ∧
    (bioproject_accession_to_uid O acc c).2.1 = c := by
  by_cases ha : pyUpper (pyStrip acc) = ""
  · have hres : bioproject_accession_to_uid O acc c = (.ok none, c, 0) := by
      unfold bioproject_accession_to_uid; simp [ha]
    rw [hres]
    exact ⟨by unfold uidTop; rw [if_pos ha], rfl⟩
  · cases hf : alFind c.uc (pyUpper (pyStrip acc)) with
    | some v =>
      have hres : bioproject_accession_to_uid O acc c =
          (.ok (if v = "" then none else some v), c, 0) := by
        unfold bioproject_accession_to_uid; simp [ha, hf]
      rw [hres]
      refine ⟨?_, rfl⟩
      unfold uidTop
      rw [if_neg ha, h.uc_val hf]
    | none =>
      rcases hs with ha' | hsm | ⟨e, he⟩
      · exact absurd ha' ha
      · rw [hf] at hsm; cases hsm
      · have ho : O.bpSearch (pyUpper (pyStrip acc)) = .error e := by
          unfold uidOutcome at he
          cases ho' : O.bpSearch (pyUpper (pyStrip acc)) with
          | error e' => rw [ho'] at he; cases he; rfl
          | ok ids => rw [ho'] at he; cases he
        have hres : bioproject_accession_to_uid O acc c = (.error e, c, 1) := by
          unfold bioproject_accession_to_uid; simp [ha, hf, ho]
        rw [hres]
        refine ⟨?_, rfl⟩
        unfold uidTop
        rw [if_neg ha, he]

/-- The bioproject lookup for `acc` will insert nothing: empty key, cached,
or a deterministically failing path whose uid half is itself settled. -/
def bpSettled (O : NcbiOracle) (acc : String) (c : Caches) : Prop :=
  pyUpper (pyStrip acc) = "" ∨
  (alFind c.bp (pyUpper (pyStrip acc))).isSome ∨
  (uidSettled O (pyUpper (pyStrip acc)) c ∧
    ∃ e, bpOutcome O (pyUpper (pyStrip acc)) = .error e)

theorem bsSettled_mono {acc : String} {c c' : Caches} (hle : CachesLe c c')
    (hs : bsSettled acc c) : bsSettled acc c' :=
  hs.imp id (hle.1 _)

theorem uidSettled_mono {O : NcbiOracle} {acc : String} {c c' : Caches}
    (hle : CachesLe c c') (hs : uidSettled O acc c) : uidSettled O acc c' :=
  hs.imp id (fun h2 => h2.imp (hle.2.1 _) id)

theorem bpSettled_mono {O : NcbiOracle} {acc : String} {c c' : Caches}
    (hle : CachesLe c c') (hs : bpSettled O acc c) : bpSettled O acc c' :=
  hs.imp id (fun h2 => h2.imp (hle.2.2 _)
    (fun h3 => ⟨uidSettled_mono hle h3.1, h3.2⟩))

theorem get_bioproject_details_spec (O : NcbiOracle) (acc : String)
    (c : Caches) (h : CachesOk O c) :
    (get_bioproject_details O acc c).1 = bpTop O acc ∧
    CachesOk O (get_bioproject_details O acc c).2.1 ∧
    CachesLe c (get_bioproject_details O acc c).2.1 ∧
    (get_bioproject_details O acc c).2.1.bs = c.bs ∧
    bpSettled O acc (get_bioproject_details O acc c).2.1 := by
  by_cases ha : pyUpper (pyStrip acc) = ""
  · have hres : get_bioproject_details O acc c = (.ok .emptyV, c, 0) := by
      unfold get_bioproject_details; simp [ha]
    rw [hres]
    exact ⟨by unfold bpTop; rw [if_pos ha], h, CachesLe.refl c, rfl,
      Or.inl ha⟩
  · cases hf : alFind c.bp (pyUpper (pyStrip acc)) with
    | some v =>
      have hres : get_bioproject_details O acc c = (.ok v, c, 0) := by
        unfold get_bioproject_details; simp [ha, hf]
      rw [hres]
      refine ⟨?_, h, CachesLe.refl c, rfl,
        Or.inr (Or.inl (by rw [hf]; rfl))⟩
      unfold bpTop
      rw [if_neg ha, h.bp_val hf]
    | none =>
      by_cases hm : matchBioproject (pyUpper (pyStrip acc)) = false
      · have hout : bpOutcome O (pyUpper (pyStrip acc)) =
            .ok (.tomb (pyUpper (pyStrip acc)) "invalid_accession") := by
          unfold bpOutcome; rw [hm]; simp
        have hres : get_bioproject_details O acc c =
            (.ok (.tomb (pyUpper (pyStrip acc)) "invalid_accession"),
             { c with bp := c.bp ++
                 [(pyUpper (pyStrip acc),
                   .tomb (pyUpper (pyStrip acc)) "invalid_accession")] },
             0) := by
          unfold get_bioproject_details; simp [ha, hf, hm]
        rw [hres]
        refine ⟨?_, ⟨h.1, h.2.1, ?_⟩,
          ⟨fun _ hk => hk, fun _ hk => hk,
           fun k hk => alFind_isSome_append _ _ k hk⟩, rfl,
          Or.inr (Or.inl ?_)⟩
        · unfold bpTop
          rw [if_neg ha, hout]
        · intro q hq
          rcases List.mem_append.1 hq with hq' | hq'
          · exact h.2.2 q hq'
          · simp only [List.mem_singleton] at hq'
            subst hq'
            exact hout
        · rw [alFind_append_none _ hf, alFind_singleton]
          simp
      · have hm' : matchBioproject (pyUpper (pyStrip acc)) = true := by
          cases hmb : matchBioproject (pyUpper (pyStrip acc)) with
          | false => exact absurd hmb hm
          | true => rfl
        rcases hRv : bioproject_accession_to_uid O (pyUpper (pyStrip acc)) c
          with ⟨u1, c1, k1⟩
        have hspec := bioproject_accession_to_uid_spec O
          (pyUpper (pyStrip acc)) c h
        rw [hRv] at hspec
        obtain ⟨hu1, hok1, hle1, hbs1, hbp1, huset⟩ := hspec
        simp only [] at hu1 hok1 hle1 hbs1 hbp1 huset
        by_cases ha2 : pyUpper (pyStrip (pyUpper (pyStrip acc))) = ""
        · have hu1' : u1 = .ok none := by
            rw [hu1]; unfold uidTop; simp [ha2]
          have hout : bpOutcome O (pyUpper (pyStrip acc)) =
              .ok (.tomb (pyUpper (pyStrip acc)) "uid_not_found") := by
            unfold bpOutcome; simp [hm', ha2]
          have hres : get_bioproject_details O acc c =
              (.ok (.tomb (pyUpper (pyStrip acc)) "uid_not_found"),
               { c1 with bp := c1.bp ++
                   [(pyUpper (pyStrip acc),
                     .tomb (pyUpper (pyStrip acc)) "uid_not_found")] },
               k1) := by
            unfold get_bioproject_details
            simp [ha, hf, hm, hRv, hu1']
          rw [hres]
          refine ⟨?_, ⟨hok1.1, hok1.2.1, ?_⟩,
            hle1.trans ⟨fun _ hk => hk, fun _ hk => hk,
              fun k hk => alFind_isSome_append _ _ k hk⟩, hbs1,
            Or.inr (Or.inl ?_)⟩
          · unfold bpTop
            rw [if_neg ha, hout]
          · intro q hq
            rcases List.mem_append.1 hq with hq' | hq'
            · exact hok1.2.2 q hq'
            · simp only [List.mem_singleton] at hq'
              subst hq'
              exact hout
          · rw [hbp1, alFind_append_none _ hf, alFind_singleton]
            simp
        · cases huo : uidOutcome O (pyUpper (pyStrip (pyUpper (pyStrip acc)))) with
          | error e =>
            have hu1' : u1 = .error e := by
              rw [hu1]; unfold uidTop; simp [ha2, huo]
            have hout : bpOutcome O (pyUpper (pyStrip acc)) = .error e := by
              unfold bpOutcome; simp [hm', ha2, huo]
            have hres : get_bioproject_details O acc c = (.error e, c1, k1) := by
              unfold get_bioproject_details
              simp [ha, hf, hm, hRv, hu1']
            rw [hres]
            refine ⟨?_, hok1, hle1, hbs1,
              Or.inr (Or.inr ⟨huset, e, hout⟩)⟩
            unfold bpTop
            rw [if_neg ha, hout]
          | ok u =>
            by_cases hu0 : u = ""
            · have hu1' : u1 = .ok none := by
                rw [hu1]; unfold uidTop; simp [ha2, huo, hu0]
              have hout : bpOutcome O (pyUpper (pyStrip acc)) =
                  .ok (.tomb (pyUpper (pyStrip acc)) "uid_not_found") := by
                unfold bpOutcome; simp [hm', ha2, huo, hu0]
              have hres : get_bioproject_details O acc c =
                  (.ok (.tomb (pyUpper (pyStrip acc)) "uid_not_found"),
                   { c1 with bp := c1.bp ++
                       [(pyUpper (pyStrip acc),
                         .tomb (pyUpper (pyStrip acc)) "uid_not_found")] },
                   k1) := by
                unfold get_bioproject_details
                simp [ha, hf, hm, hRv, hu1']
              rw [hres]
              refine ⟨?_, ⟨hok1.1, hok1.2.1, ?_⟩,
                hle1.trans ⟨fun _ hk => hk, fun _ hk => hk,
                  fun k hk => alFind_isSome_append _ _ k hk⟩, hbs1,
                Or.inr (Or.inl ?_)⟩
              · unfold bpTop
                rw [if_neg ha, hout]
              · intro q hq
                rcases List.mem_append.1 hq with hq' | hq'
                · exact hok1.2.2 q hq'
                · simp only [List.mem_singleton] at hq'
                  subst hq'
                  exact hout
              · rw [hbp1, alFind_append_none _ hf, alFind_singleton]
                simp
            · have hu1' : u1 = .ok (some u) := by
                rw [hu1]; unfold uidTop; simp [ha2, huo, hu0]
              cases hsum : O.bpSummary u with
              | error e =>
                have hout : bpOutcome O (pyUpper (pyStrip acc)) = .error e := by
                  unfold bpOutcome; simp [hm', ha2, huo, hu0, hsum]
                have hres : get_bioproject_details O acc c =
                    (.error e, c1, k1 + 1) := by
                  unfold get_bioproject_details
                  simp [ha, hf, hm, hRv, hu1', hsum]
                rw [hres]
                refine ⟨?_, hok1, hle1, hbs1,
                  Or.inr (Or.inr ⟨huset, e, hout⟩)⟩
                unfold bpTop
                rw [if_neg ha, hout]
              | ok d =>
                have hout : bpOutcome O (pyUpper (pyStrip acc)) =
                    .ok (.doc (bpFix (pyUpper (pyStrip acc)) d)) := by
                  unfold bpOutcome; simp [hm', ha2, huo, hu0, hsum]
                have hres : get_bioproject_details O acc c =
                    (.ok (.doc (bpFix (pyUpper (pyStrip acc)) d)),
                     { c1 with bp := c1.bp ++
                         [(pyUpper (pyStrip acc),
                           .doc (bpFix (pyUpper (pyStrip acc)) d))] },
                     k1 + 1) := by
                  unfold get_bioproject_details
                  simp [ha, hf, hm, hRv, hu1', hsum]
                rw [hres]
                refine ⟨?_, ⟨hok1.1, hok1.2.1, ?_⟩,
                  hle1.trans ⟨fun _ hk => hk, fun _ hk => hk,
                    fun k hk => alFind_isSome_append _ _ k hk⟩, hbs1,
                  Or.inr (Or.inl ?_)⟩
                · unfold bpTop
                  rw [if_neg ha, hout]
                · intro q hq
                  rcases List.mem_append.1 hq with hq' | hq'
                  · exact hok1.2.2 q hq'
                  · simp only [List.mem_singleton] at hq'
                    subst hq'
                    exact hout
                · rw [hbp1, alFind_append_none _ hf, alFind_singleton]
                  simp

theorem get_bioproject_details_settled (O : NcbiOracle) (acc : String)
    (c : Caches) (h : CachesOk O c) (hs : bpSettled O acc c) :
    (get_bioproject_details O acc c).1 = bpTop O acc ∧
    (get_bioproject_details O acc c).2.1 = c := by
  by_cases ha : pyUpper (pyStrip acc) = ""
  · have hres : get_bioproject_details O acc c = (.ok .emptyV, c, 0) := by
      unfold get_bioproject_details; simp [ha]
    rw [hres]
    exact ⟨by unfold bpTop; rw [if_pos ha], rfl⟩
  · cases hf : alFind c.bp (pyUpper (pyStrip acc)) with
    | some v =>
      have hres : get_bioproject_details O acc c = (.ok v, c, 0) := by
        unfold get_bioproject_details; simp [ha, hf]
      rw [hres]
      refine ⟨?_, rfl⟩
      unfold bpTop
      rw [if_neg ha, h.bp_val hf]
    | none =>
      rcases hs with ha' | hsm | ⟨huidset, e, herr⟩
      · exact absurd ha' ha
      · rw [hf] at hsm; cases hsm
      · have hm' : matchBioproject (pyUpper (pyStrip acc)) = true := by
          cases hmb : matchBioproject (pyUpper (pyStrip acc)) with
          | false =>
            exfalso
            have : bpOutcome O (pyUpper (pyStrip acc)) =
                .ok (.tomb (pyUpper (pyStrip acc)) "invalid_accession") := by
              unfold bpOutcome; rw [hmb]; simp
            rw [this] at herr; cases herr
          | true => rfl
        have hm : ¬ matchBioproject (pyUpper (pyStrip acc)) = false := by
          rw [hm']; simp
        rcases hRv : bioproject_accession_to_uid O (pyUpper (pyStrip acc)) c
          with ⟨u1, c1, k1⟩
        have hsettle := bioproject_accession_to_uid_settled O
          (pyUpper (pyStrip acc)) c h huidset
        rw [hRv] at hsettle
        obtain ⟨hu1, hc1⟩ := hsettle
        simp only [] at hu1 hc1
        rw [hc1] at hRv
        by_cases ha2 : pyUpper (pyStrip (pyUpper (pyStrip acc))) = ""
        · exfalso
          have : bpOutcome O (pyUpper (pyStrip acc)) =
              .ok (.tomb (pyUpper (pyStrip acc)) "uid_not_found") := by
            unfold bpOutcome; simp [hm', ha2]
          rw [this] at herr; cases herr
        · cases huo : uidOutcome O (pyUpper (pyStrip (pyUpper (pyStrip acc)))) with
          | error e' =>
            have hu1' : u1 = .error e' := by
              rw [hu1]; unfold uidTop; simp [ha2, huo]
            have hout : bpOutcome O (pyUpper (pyStrip acc)) = .error e' := by
              unfold bpOutcome; simp [hm', ha2, huo]
            have hres : get_bioproject_details O acc c = (.error e', c, k1) := by
              unfold get_bioproject_details
              simp [ha, hf, hm, hRv, hu1']
            rw [hres]
            refine ⟨?_, rfl⟩
            unfold bpTop
            rw [if_neg ha, hout]
          | ok u =>
            by_cases hu0 : u = ""
            · exfalso
              have : bpOutcome O (pyUpper (pyStrip acc)) =
                  .ok (.tomb (pyUpper (pyStrip acc)) "uid_not_found") := by
                unfold bpOutcome; simp [hm', ha2, huo, hu0]
              rw [this] at herr; cases herr
            · have hu1' : u1 = .ok (some u) := by
                rw [hu1]; unfold uidTop; simp [ha2, huo, hu0]
              cases hsum : O.bpSummary u with
              | error e' =>
                have hout : bpOutcome O (pyUpper (pyStrip acc)) = .error e' := by
                  unfold bpOutcome; simp [hm', ha2, huo, hu0, hsum]
                have hres : get_bioproject_details O acc c =
                    (.error e', c, k1 + 1) := by
                  unfold get_bioproject_details
                  simp [ha, hf, hm, hRv, hu1', hsum]
                rw [hres]
                refine ⟨?_, rfl⟩
                unfold bpTop
                rw [if_neg ha, hout]
              | ok d =>
                exfalso
                have : bpOutcome O (pyUpper (pyStrip acc)) =
                    .ok (.doc (bpFix (pyUpper (pyStrip acc)) d)) := by
                  unfold bpOutcome; simp [hm', ha2, huo, hu0, hsum]
                rw [this] at herr; cases herr

/-! ### Row- and uid-level determinism -/

/-- The deterministic result of one row, given the oracle (what `buildRow`
returns from any consistent cache state). -/
def rowOutcome (O : NcbiOracle) (cfg : BuildCfg)
    (sraUid title guess : String) (r : Row) :
    Except String (Option SrrRecord) :=
  let srr := pyStrip (rowGet r "Run")
  if srr = "" then .ok none
  else
    let bsAcc := pyStrip (rowGet r "BioSample")
    let bsd := if cfg.fetchBs ∧ bsAcc ≠ "" then bsTop O bsAcc else emptyBs
    let prj := rowPrj guess r
    if cfg.fetchBp ∧ prj ≠ "" ∧ matchBioproject prj = true then
      match bpTop O prj with
      | .error e => .error e
      | .ok v => .ok (some (mkSrrRecord cfg.latlonEx sraUid title r bsd v))
    else .ok (some (mkSrrRecord cfg.latlonEx sraUid title r bsd .emptyV))

/-- Processing row `r` from caches `c` inserts nothing. -/
def rowSettled (O : NcbiOracle) (cfg : BuildCfg) (guess : String) (r : Row)
    (c : Caches) : Prop :=
  pyStrip (rowGet r "Run") = "" ∨
  ((cfg.fetchBs ∧ pyStrip (rowGet r "BioSample") ≠ "" →
      bsSettled (pyStrip (rowGet r "BioSample")) c) ∧
   (cfg.fetchBp ∧ rowPrj guess r ≠ "" ∧ matchBioproject (rowPrj guess r) = true →
      bpSettled O (rowPrj guess r) c))

theorem rowSettled_mono {O : NcbiOracle} {cfg : BuildCfg} {guess : String}
    {r : Row} {c c' : Caches} (hle : CachesLe c c')
    (hs : rowSettled O cfg guess r c) : rowSettled O cfg guess r c' :=
  hs.imp id (fun h2 =>
    ⟨fun hb => bsSettled_mono hle (h2.1 hb),
     fun hb => bpSettled_mono hle (h2.2 hb)⟩)

theorem buildRow_spec (O : NcbiOracle) (cfg : BuildCfg)
    (sraUid title guess : String) (r : Row) (c : Caches)
    (h : CachesOk O c) :
    (buildRow O cfg sraUid title guess r c).1 =
      rowOutcome O cfg sraUid title guess r ∧
    CachesOk O (buildRow O cfg sraUid title guess r c).2 ∧
    CachesLe c (buildRow O cfg sraUid title guess r c).2 ∧
    rowSettled O cfg guess r (buildRow O cfg sraUid title guess r c).2 := by
  by_cases hsrr : pyStrip (rowGet r "Run") = ""
  · have hres : buildRow O cfg sraUid title guess r c = (.ok none, c) := by
      unfold buildRow; simp [hsrr]
    have hout : rowOutcome O cfg sraUid title guess r = .ok none := by
      unfold rowOutcome; simp [hsrr]
    rw [hres, hout]
    exact ⟨rfl, h, CachesLe.refl c, Or.inl hsrr⟩
  · rcases hG : (if cfg.fetchBs ∧ pyStrip (rowGet r "BioSample") ≠ "" then
        (let g := get_biosample_details O (pyStrip (rowGet r "BioSample")) c
         (g.1, g.2.1))
      else (emptyBs, c)) with ⟨v1, c1⟩
    have hbsfacts : v1 = (if cfg.fetchBs ∧ pyStrip (rowGet r "BioSample") ≠ ""
          then bsTop O (pyStrip (rowGet r "BioSample")) else emptyBs) ∧
        CachesOk O c1 ∧ CachesLe c c1 ∧
        (cfg.fetchBs ∧ pyStrip (rowGet r "BioSample") ≠ "" →
          bsSettled (pyStrip (rowGet r "BioSample")) c1) := by
      by_cases hbs : cfg.fetchBs ∧ pyStrip (rowGet r "BioSample") ≠ ""
      · rw [if_pos hbs] at hG
        have hspec := get_biosample_details_spec O
          (pyStrip (rowGet r "BioSample")) c h
        simp only [Prod.mk.injEq] at hG
        have h1 : v1 = (get_biosample_details O
            (pyStrip (rowGet r "BioSample")) c).1 := hG.1.symm
        have h2 : c1 = (get_biosample_details O
            (pyStrip (rowGet r "BioSample")) c).2.1 := hG.2.symm
        rw [if_pos hbs, h1, h2]
        exact ⟨hspec.1, hspec.2.1, hspec.2.2.1, fun _ => hspec.2.2.2.2.2⟩
      · rw [if_neg hbs] at hG
        cases hG
        rw [if_neg hbs]
        exact ⟨rfl, h, CachesLe.refl c, fun hb => absurd hb hbs⟩
    obtain ⟨hv1, hok1, hle1, hset1⟩ := hbsfacts
    by_cases hbp : cfg.fetchBp ∧ rowPrj guess r ≠ "" ∧
        matchBioproject (rowPrj guess r) = true
    · rcases hB : get_bioproject_details O (rowPrj guess r) c1
        with ⟨bv, c2, k2⟩
      have hspec2 := get_bioproject_details_spec O (rowPrj guess r) c1 hok1
      rw [hB] at hspec2
      obtain ⟨hbv, hok2, hle2, hbs2, hset2⟩ := hspec2
      simp only [] at hbv hok2 hle2 hbs2 hset2
      cases hbt : bpTop O (rowPrj guess r) with
      | error e =>
        have hbv' : bv = .error e := by rw [hbv, hbt]
        have hres : buildRow O cfg sraUid title guess r c = (.error e, c2) := by
          unfold buildRow
          simp [hsrr, hG, hbp, hB, hbv']
        have hout : rowOutcome O cfg sraUid title guess r = .error e := by
          unfold rowOutcome
          simp [hsrr, hbp, hbt]
        rw [hres, hout]
        exact ⟨rfl, hok2, hle1.trans hle2,
          Or.inr ⟨fun hb => bsSettled_mono hle2 (hset1 hb),
                  fun _ => hset2⟩⟩
      | ok v =>
        have hbv' : bv = .ok v := by rw [hbv, hbt]
        have hres : buildRow O cfg sraUid title guess r c =
            (.ok (some (mkSrrRecord cfg.latlonEx sraUid title r v1 v)), c2) := by
          unfold buildRow
          simp [hsrr, hG, hbp, hB, hbv']
        have hout : rowOutcome O cfg sraUid title guess r =
            .ok (some (mkSrrRecord cfg.latlonEx sraUid title r
              (if cfg.fetchBs ∧ pyStrip (rowGet r "BioSample") ≠ "" then
                bsTop O (pyStrip (rowGet r "BioSample")) else emptyBs) v)) := by
          unfold rowOutcome
          simp [hsrr, hbp, hbt]
        rw [hres, hout, hv1]
        exact ⟨rfl, hok2, hle1.trans hle2,
          Or.inr ⟨fun hb => bsSettled_mono hle2 (hset1 hb),
                  fun _ => hset2⟩⟩
    · have hres : buildRow O cfg sraUid title guess r c =
          (.ok (some (mkSrrRecord cfg.latlonEx sraUid title r v1 .emptyV)),
           c1) := by
        unfold buildRow
        simp [hsrr, hG, hbp]
      have hout : rowOutcome O cfg sraUid title guess r =
          .ok (some (mkSrrRecord cfg.latlonEx sraUid title r
            (if cfg.fetchBs ∧ pyStrip (rowGet r "BioSample") ≠ "" then
              bsTop O (pyStrip (rowGet r "BioSample")) else emptyBs)
            .emptyV)) := by
        unfold rowOutcome
        simp [hsrr, hbp]
      rw [hres, hout, hv1]
      exact ⟨rfl, hok1, hle1,
        Or.inr ⟨hset1, fun hb => absurd hb hbp⟩⟩

theorem buildRow_settled (O : NcbiOracle) (cfg : BuildCfg)
    (sraUid title guess : String) (r : Row) (c : Caches)
    (h : CachesOk O c) (hs : rowSettled O cfg guess r c) :
    buildRow O cfg sraUid title guess r c =
      (rowOutcome O cfg sraUid title guess r, c) := by
  by_cases hsrr : pyStrip (rowGet r "Run") = ""
  · unfold buildRow rowOutcome; simp [hsrr]
  · rcases hs with hsrr' | ⟨hsbs, hsbp⟩
    · exact absurd hsrr' hsrr
    · have hGset : (if cfg.fetchBs ∧ pyStrip (rowGet r "BioSample") ≠ "" then
          (let g := get_biosample_details O (pyStrip (rowGet r "BioSample")) c
           (g.1, g.2.1))
        else (emptyBs, c)) =
          ((if cfg.fetchBs ∧ pyStrip (rowGet r "BioSample") ≠ "" then
            bsTop O (pyStrip (rowGet r "BioSample")) else emptyBs), c) := by
        by_cases hbs : cfg.fetchBs ∧ pyStrip (rowGet r "BioSample") ≠ ""
        · rw [if_pos hbs, if_pos hbs]
          have := get_biosample_details_settled O
            (pyStrip (rowGet r "BioSample")) c h (hsbs hbs)
          simp only [this]
        · rw [if_neg hbs, if_neg hbs]
      by_cases hbp : cfg.fetchBp ∧ rowPrj guess r ≠ "" ∧
          matchBioproject (rowPrj guess r) = true
      · have hBset := get_bioproject_details_settled O (rowPrj guess r) c h
          (hsbp hbp)
        rcases hB : get_bioproject_details O (rowPrj guess r) c
          with ⟨bv, c2, k2⟩
        rw [hB] at hBset
        obtain ⟨hbv, hc2⟩ := hBset
        simp only [] at hbv hc2
        cases hbt : bpTop O (rowPrj guess r) with
        | error e =>
          have hbv' : bv = .error e := by rw [hbv, hbt]
          unfold buildRow rowOutcome
          simp [hsrr, hGset, hbp, hB, hbv', hc2, hbt]
        | ok v =>
          have hbv' : bv = .ok v := by rw [hbv, hbt]
          unfold buildRow rowOutcome
          simp [hsrr, hGset, hbp, hB, hbv', hc2, hbt]
      · unfold buildRow rowOutcome
        simp [hsrr, hGset, hbp]

/-- Deterministic result of the whole row loop. -/
def rowsOutcome (O : NcbiOracle) (cfg : BuildCfg)
    (sraUid title guess : String) : List Row → Except String (List SrrRecord)
  | [] => .ok []
  | r :: rs =>
    match rowOutcome O cfg sraUid title guess r with
    | .error e => .error e
    | .ok orec =>
      match rowsOutcome O cfg sraUid title guess rs with
      | .error e => .error e
      | .ok recs => .ok (orec.toList ++ recs)

/-- All rows that will actually be processed (everything up to and
including the first erroring row) are settled at `c`. -/
def rowsSettled (O : NcbiOracle) (cfg : BuildCfg)
    (sraUid title guess : String) : List Row → Caches → Prop
  | [], _ => True
  | r :: rs, c =>
    rowSettled O cfg guess r c ∧
    (match rowOutcome O cfg sraUid title guess r with
     | .error _ => True
     | .ok _ => rowsSettled O cfg sraUid title guess rs c)

theorem rowsSettled_mono {O : NcbiOracle} {cfg : BuildCfg}
    {sraUid title guess : String} {rows : List Row} {c c' : Caches}
    (hle : CachesLe c c') (hs : rowsSettled O cfg sraUid title guess rows c) :
    rowsSettled O cfg sraUid title guess rows c' := by
  induction rows with
  | nil => trivial
  | cons r rs ih =>
    obtain ⟨h1, h2⟩ := hs
    refine ⟨rowSettled_mono hle h1, ?_⟩
    cases ho : rowOutcome O cfg sraUid title guess r with
    | error e => trivial
    | ok orec =>
      rw [ho] at h2
      exact ih h2

theorem buildRows_spec (O : NcbiOracle) (cfg : BuildCfg)
    (sraUid title guess : String) (rows : List Row) (c : Caches)
    (h : CachesOk O c) :
    (buildRows O cfg sraUid title guess rows c).1 =
      rowsOutcome O cfg sraUid title guess rows ∧
    CachesOk O (buildRows O cfg sraUid title guess rows c).2 ∧
    CachesLe c (buildRows O cfg sraUid title guess rows c).2 ∧
    rowsSettled O cfg sraUid title guess rows
      (buildRows O cfg sraUid title guess rows c).2 := by
  induction rows generalizing c with
  | nil => exact ⟨rfl, h, CachesLe.refl c, trivial⟩
  | cons r rs ih =>
    rcases hR : buildRow O cfg sraUid title guess r c with ⟨res1, c1⟩
    have hrow := buildRow_spec O cfg sraUid title guess r c h
    rw [hR] at hrow
    obtain ⟨hres1, hok1, hle1, hset1⟩ := hrow
    simp only [] at hres1 hok1 hle1 hset1
    cases ho : rowOutcome O cfg sraUid title guess r with
    | error e =>
      have hres1' : res1 = .error e := by rw [hres1, ho]
      have hbuild : buildRows O cfg sraUid title guess (r :: rs) c =
          (.error e, c1) := by
        rw [hres1'] at hR
        unfold buildRows
        rw [hR]
      have hout : rowsOutcome O cfg sraUid title guess (r :: rs) = .error e := by
        unfold rowsOutcome
        rw [ho]
      rw [hbuild, hout]
      refine ⟨rfl, hok1, hle1, ⟨hset1, ?_⟩⟩
      rw [ho]
      trivial
    | ok orec =>
      have hres1' : res1 = .ok orec := by rw [hres1, ho]
      rcases hRs : buildRows O cfg sraUid title guess rs c1 with ⟨res2, c2⟩
      have hrec := ih c1 hok1
      rw [hRs] at hrec
      obtain ⟨hres2, hok2, hle2, hset2⟩ := hrec
      simp only [] at hres2 hok2 hle2 hset2
      cases ho2 : rowsOutcome O cfg sraUid title guess rs with
      | error e =>
        have hres2' : res2 = .error e := by rw [hres2, ho2]
        have hbuild : buildRows O cfg sraUid title guess (r :: rs) c =
            (.error e, c2) := by
          rw [hres1'] at hR
          rw [hres2'] at hRs
          unfold buildRows
          rw [hR]
          simp [hRs]
        have hout : rowsOutcome O cfg sraUid title guess (r :: rs) =
            .error e := by
          unfold rowsOutcome
          rw [ho, ho2]
        rw [hbuild, hout]
        refine ⟨rfl, hok2, hle1.trans hle2, ?_, ?_⟩
        · exact rowSettled_mono hle2 hset1
        · rw [ho]
          exact hset2
      | ok recs =>
        have hres2' : res2 = .ok recs := by rw [hres2, ho2]
        have hbuild : buildRows O cfg sraUid title guess (r :: rs) c =
            (.ok (orec.toList ++ recs), c2) := by
          rw [hres1'] at hR
          rw [hres2'] at hRs
          unfold buildRows
          rw [hR]
          simp [hRs]
        have hout : rowsOutcome O cfg sraUid title guess (r :: rs) =
            .ok (orec.toList ++ recs) := by
          unfold rowsOutcome
          rw [ho, ho2]
        rw [hbuild, hout]
        refine ⟨rfl, hok2, hle1.trans hle2, ?_, ?_⟩
        · exact rowSettled_mono hle2 hset1
        · rw [ho]
          exact hset2

theorem buildRows_settled (O : NcbiOracle) (cfg : BuildCfg)
    (sraUid title guess : String) (rows : List Row) (c : Caches)
    (h : CachesOk O c) (hs : rowsSettled O cfg sraUid title guess rows c) :
    buildRows O cfg sraUid title guess rows c =
      (rowsOutcome O cfg sraUid title guess rows, c) := by
  induction rows with
  | nil => rfl
  | cons r rs ih =>
    obtain ⟨h1, h2⟩ := hs
    have hrow := buildRow_settled O cfg sraUid title guess r c h h1
    cases ho : rowOutcome O cfg sraUid title guess r with
    | error e =>
      have hrow' : buildRow O cfg sraUid title guess r c = (.error e, c) := by
        rw [hrow, ho]
      unfold buildRows rowsOutcome
      rw [hrow', ho]
    | ok orec =>
      have hrow' : buildRow O cfg sraUid title guess r c = (.ok orec, c) := by
        rw [hrow, ho]
      rw [ho] at h2
      have h2' : rowsSettled O cfg sraUid title guess rs c := h2
      have hrec := ih h2'
      unfold buildRows rowsOutcome
      rw [hrow']
      cases horc : rowsOutcome O cfg sraUid title guess rs with
      | error e => simp [hrec, horc, ho]
      | ok recs => simp [hrec, horc, ho]

/-- Deterministic result of `build_srr_records_for_sra_uid`. -/
def buildOutcome (O : NcbiOracle) (cfg : BuildCfg) (sraUid : String)
    (ssum : SraSummary) : Except String (List SrrRecord) :=
  match O.runinfo sraUid with
  | .error e => .error e
  | .ok rows0 =>
    let rows := if cfg.maxRows ≠ 0 ∧ rows0.length > cfg.maxRows then
      rows0.take cfg.maxRows else rows0
    rowsOutcome O cfg sraUid (pyStrip ssum.title) ssum.bioproject_guess rows

def buildSettled (O : NcbiOracle) (cfg : BuildCfg) (sraUid : String)
    (ssum : SraSummary) (c : Caches) : Prop :=
  match O.runinfo sraUid with
  | .error _ => True
  | .ok rows0 =>
    let rows := if cfg.maxRows ≠ 0 ∧ rows0.length > cfg.maxRows then
      rows0.take cfg.maxRows else rows0
    rowsSettled O cfg sraUid (pyStrip ssum.title) ssum.bioproject_guess rows c

theorem buildSettled_mono {O : NcbiOracle} {cfg : BuildCfg} {sraUid : String}
    {ssum : SraSummary} {c c' : Caches} (hle : CachesLe c c')
    (hs : buildSettled O cfg sraUid ssum c) :
    buildSettled O cfg sraUid ssum c' := by
  unfold buildSettled at hs ⊢
  cases ho : O.runinfo sraUid with
  | error e => trivial
  | ok rows0 =>
    rw [ho] at hs
    exact rowsSettled_mono hle hs

theorem build_srr_spec (O : NcbiOracle) (cfg : BuildCfg) (sraUid : String)
    (ssum : SraSummary) (c : Caches) (h : CachesOk O c) :
    (build_srr_records_for_sra_uid O cfg sraUid ssum c).1 =
      buildOutcome O cfg sraUid ssum ∧
    CachesOk O (build_srr_records_for_sra_uid O cfg sraUid ssum c).2 ∧
    CachesLe c (build_srr_records_for_sra_uid O cfg sraUid ssum c).2 ∧
    buildSettled O cfg sraUid ssum
      (build_srr_records_for_sra_uid O cfg sraUid ssum c).2 := by
  unfold build_srr_records_for_sra_uid buildOutcome buildSettled
  cases ho : O.runinfo sraUid with
  | error e => exact ⟨rfl, h, CachesLe.refl c, trivial⟩
  | ok rows0 =>
    simp only []
    exact buildRows_spec O cfg sraUid (pyStrip ssum.title)
      ssum.bioproject_guess _ c h

theorem build_srr_settled (O : NcbiOracle) (cfg : BuildCfg) (sraUid : String)
    (ssum : SraSummary) (c : Caches) (h : CachesOk O c)
    (hs : buildSettled O cfg sraUid ssum c) :
    build_srr_records_for_sra_uid O cfg sraUid ssum c =
      (buildOutcome O cfg sraUid ssum, c) := by
  unfold build_srr_records_for_sra_uid buildOutcome
  unfold buildSettled at hs
  cases ho : O.runinfo sraUid with
  | error e => rfl
  | ok rows0 =>
    rw [ho] at hs
    simp only []
    exact buildRows_settled O cfg sraUid (pyStrip ssum.title)
      ssum.bioproject_guess _ c h hs

/-! ### Ingest-level determinism -/

/-- The observable outputs of `ingest_uids_to_srr` (everything except the
cache contents), determined by the oracle alone. -/
structure IngestVis where
  added : List SrrRecord
  sraMarks : List String
  srrMarks : List String
  okCount : Nat
  errCount : Nat
  skipSeen : Nat
  seenSra : List String
  seenSrr : List String
  deriving Repr, DecidableEq

def ingestVisSpec (O : NcbiOracle) (cfg : BuildCfg)
    (sums : List (String × SraSummary)) :
    List String → List String → List String → IngestVis
  | [], sra, srr =>
    { added := [], sraMarks := [], srrMarks := [], okCount := 0,
      errCount := 0, skipSeen := 0, seenSra := sra, seenSrr := srr }
  | uid :: rest, sra, srr =>
    match buildOutcome O cfg uid (summaryFor sums uid) with
    | .error _ =>
      let v := ingestVisSpec O cfg sums rest sra srr
      { v with errCount := v.errCount + 1 }
    | .ok rows =>
      let em := emitRows rows srr
      let v := ingestVisSpec O cfg sums rest (sra ++ [uid]) em.2.2.1
      { v with
        added := em.1 ++ v.added
        sraMarks := uid :: v.sraMarks
        srrMarks := em.2.1 ++ v.srrMarks
        okCount := v.okCount + 1
        skipSeen := em.2.2.2 + v.skipSeen }

theorem ingestLoop_master (O : NcbiOracle) (cfg : BuildCfg)
    (sums : List (String × SraSummary)) (l : List String) (st : IngestState)
    (h : CachesOk O st.caches) :
    (ingestLoop O cfg sums l st).added =
      (ingestVisSpec O cfg sums l st.seenSra st.seenSrr).added ∧
    (ingestLoop O cfg sums l st).sraMarks =
      (ingestVisSpec O cfg sums l st.seenSra st.seenSrr).sraMarks ∧
    (ingestLoop O cfg sums l st).srrMarks =
      (ingestVisSpec O cfg sums l st.seenSra st.seenSrr).srrMarks ∧
    (ingestLoop O cfg sums l st).okCount =
      (ingestVisSpec O cfg sums l st.seenSra st.seenSrr).okCount ∧
    (ingestLoop O cfg sums l st).errCount =
      (ingestVisSpec O cfg sums l st.seenSra st.seenSrr).errCount ∧
    (ingestLoop O cfg sums l st).skipSeen =
      (ingestVisSpec O cfg sums l st.seenSra st.seenSrr).skipSeen ∧
    (ingestLoop O cfg sums l st).state.seenSra =
      (ingestVisSpec O cfg sums l st.seenSra st.seenSrr).seenSra ∧
    (ingestLoop O cfg sums l st).state.seenSrr =
      (ingestVisSpec O cfg sums l st.seenSra st.seenSrr).seenSrr ∧
    CachesOk O (ingestLoop O cfg sums l st).state.caches ∧
    CachesLe st.caches (ingestLoop O cfg sums l st).state.caches ∧
    (∀ u ∈ l, buildSettled O cfg u (summaryFor sums u)
      (ingestLoop O cfg sums l st).state.caches) := by
  induction l generalizing st with
  | nil =>
    refine ⟨rfl, rfl, rfl, rfl, rfl, rfl, rfl, rfl, h,
      CachesLe.refl st.caches, ?_⟩
    intro u hu
    cases hu
  | cons uid rest ih =>
    rcases hB : build_srr_records_for_sra_uid O cfg uid (summaryFor sums uid)
      st.caches with ⟨bres, c'⟩
    have hbspec := build_srr_spec O cfg uid (summaryFor sums uid) st.caches h
    rw [hB] at hbspec
    obtain ⟨hbres, hok', hle', hset'⟩ := hbspec
    simp only [] at hbres hok' hle' hset'
    cases hbo : buildOutcome O cfg uid (summaryFor sums uid) with
    | error e =>
      have hbres' : bres = .error e := by rw [hbres, hbo]
      rw [hbres'] at hB
      have hloop : ingestLoop O cfg sums (uid :: rest) st =
          (let res := ingestLoop O cfg sums rest { st with caches := c' }
           { res with errCount := res.errCount + 1 }) := by
        conv_lhs => unfold ingestLoop
        rw [hB]
      have hvis : ingestVisSpec O cfg sums (uid :: rest) st.seenSra st.seenSrr =
          (let v := ingestVisSpec O cfg sums rest st.seenSra st.seenSrr
           { v with errCount := v.errCount + 1 }) := by
        conv_lhs => unfold ingestVisSpec
        rw [hbo]
      have hrec := ih { st with caches := c' } hok'
      simp only [] at hrec
      obtain ⟨r1, r2, r3, r4, r5, r6, r7, r8, r9, r10, r11⟩ := hrec
      rw [hloop, hvis]
      refine ⟨r1, r2, r3, r4, ?_, r6, r7, r8, r9, hle'.trans r10, ?_⟩
      · simp only []
        rw [r5]
      · intro u hu
        rcases List.mem_cons.1 hu with rfl | hu'
        · exact buildSettled_mono r10 hset'
        · exact r11 u hu'
    | ok rows =>
      have hbres' : bres = .ok rows := by rw [hbres, hbo]
      rw [hbres'] at hB
      have hloop : ingestLoop O cfg sums (uid :: rest) st =
          (let em := emitRows rows st.seenSrr
           let res := ingestLoop O cfg sums rest
             { seenSra := st.seenSra ++ [uid], seenSrr := em.2.2.1,
               caches := c' }
           { res with
             added := em.1 ++ res.added
             sraMarks := uid :: res.sraMarks
             srrMarks := em.2.1 ++ res.srrMarks
             okCount := res.okCount + 1
             skipSeen := em.2.2.2 + res.skipSeen }) := by
        conv_lhs => unfold ingestLoop
        rw [hB]
      have hvis : ingestVisSpec O cfg sums (uid :: rest) st.seenSra st.seenSrr =
          (let em := emitRows rows st.seenSrr
           let v := ingestVisSpec O cfg sums rest (st.seenSra ++ [uid])
             em.2.2.1
           { v with
             added := em.1 ++ v.added
             sraMarks := uid :: v.sraMarks
             srrMarks := em.2.1 ++ v.srrMarks
             okCount := v.okCount + 1
             skipSeen := em.2.2.2 + v.skipSeen }) := by
        conv_lhs => unfold ingestVisSpec
        rw [hbo]
      have hrec := ih
        { seenSra := st.seenSra ++ [uid]
          seenSrr := (emitRows rows st.seenSrr).2.2.1
          caches := c' } hok'
      simp only [] at hrec
      obtain ⟨r1, r2, r3, r4, r5, r6, r7, r8, r9, r10, r11⟩ := hrec
      rw [hloop, hvis]
      refine ⟨?_, ?_, ?_, ?_, ?_, ?_, ?_, ?_, r9, hle'.trans r10, ?_⟩
      · simp only []
        rw [r1]
      · simp only []
        rw [r2]
      · simp only []
        rw [r3]
      · simp only []
        rw [r4]
      · simp only []
        rw [r5]
      · simp only []
        rw [r6]
      · simp only []
        rw [r7]
      · simp only []
        rw [r8]
      · intro u hu
        rcases List.mem_cons.1 hu with rfl | hu'
        · exact buildSettled_mono r10 hset'
        · exact r11 u hu'

/-- A batch whose every uid deterministically fails and is settled changes
nothing: no records, no marks, caches and seen sets untouched. -/
theorem ingestLoop_all_errors (O : NcbiOracle) (cfg : BuildCfg)
    (sums : List (String × SraSummary)) (l : List String) (st : IngestState)
    (h : CachesOk O st.caches)
    (hall : ∀ u ∈ l, (∃ e, buildOutcome O cfg u (summaryFor sums u) = .error e)
        ∧ buildSettled O cfg u (summaryFor sums u) st.caches) :
    ingestLoop O cfg sums l st =
      { added := [], sraMarks := [], srrMarks := [], okCount := 0,
        errCount := l.length, skipSeen := 0, state := st } := by
  induction l with
  | nil => rfl
  | cons uid rest ih =>
    obtain ⟨⟨e, he⟩, hset⟩ := hall uid (List.mem_cons_self uid rest)
    have hb := build_srr_settled O cfg uid (summaryFor sums uid) st.caches h
      hset
    rw [he] at hb
    have hrest := ih (fun u hu => hall u (List.mem_cons_of_mem uid hu))
    have hst : ({ st with caches := st.caches } : IngestState) = st := rfl
    conv_lhs => unfold ingestLoop
    rw [hb]
    show (let res := ingestLoop O cfg sums rest { st with caches := st.caches }
          { res with errCount := res.errCount + 1 }) = _
    rw [hst, hrest]
    simp

theorem ingestVisSpec_seenSra_super (O : NcbiOracle) (cfg : BuildCfg)
    (sums : List (String × SraSummary)) :
    ∀ (l sra srr : List String) (x : String), x ∈ sra →
      x ∈ (ingestVisSpec O cfg sums l sra srr).seenSra := by
  intro l
  induction l with
  | nil => intro sra srr x hx; exact hx
  | cons uid rest ih =>
    intro sra srr x hx
    cases hbo : buildOutcome O cfg uid (summaryFor sums uid) with
    | error e =>
      have : (ingestVisSpec O cfg sums (uid :: rest) sra srr).seenSra =
          (ingestVisSpec O cfg sums rest sra srr).seenSra := by
        conv_lhs => unfold ingestVisSpec
        rw [hbo]
      rw [this]
      exact ih sra srr x hx
    | ok rows =>
      have : (ingestVisSpec O cfg sums (uid :: rest) sra srr).seenSra =
          (ingestVisSpec O cfg sums rest (sra ++ [uid])
            (emitRows rows srr).2.2.1).seenSra := by
        conv_lhs => unfold ingestVisSpec
        rw [hbo]
      rw [this]
      exact ih _ _ x (List.mem_append_left _ hx)

theorem ingestVisSpec_ok_mem (O : NcbiOracle) (cfg : BuildCfg)
    (sums : List (String × SraSummary)) :
    ∀ (l sra srr : List String) (u : String), u ∈ l →
      (∃ rows, buildOutcome O cfg u (summaryFor sums u) = .ok rows) →
      u ∈ (ingestVisSpec O cfg sums l sra srr).seenSra := by
  intro l
  induction l with
  | nil => intro sra srr u hu; cases hu
  | cons uid rest ih =>
    intro sra srr u hu hok
    rcases List.mem_cons.1 hu with rfl | hu'
    · obtain ⟨rows, hrows⟩ := hok
      have : (ingestVisSpec O cfg sums (u :: rest) sra srr).seenSra =
          (ingestVisSpec O cfg sums rest (sra ++ [u])
            (emitRows rows srr).2.2.1).seenSra := by
        conv_lhs => unfold ingestVisSpec
        rw [hrows]
      rw [this]
      exact ingestVisSpec_seenSra_super O cfg sums rest _ _ u
        (List.mem_append_right _ (List.mem_singleton.2 rfl))
    · cases hbo : buildOutcome O cfg uid (summaryFor sums uid) with
      | error e =>
        have : (ingestVisSpec O cfg sums (uid :: rest) sra srr).seenSra =
            (ingestVisSpec O cfg sums rest sra srr).seenSra := by
          conv_lhs => unfold ingestVisSpec
          rw [hbo]
        rw [this]
        exact ih sra srr u hu' hok
      | ok rows =>
        have : (ingestVisSpec O cfg sums (uid :: rest) sra srr).seenSra =
            (ingestVisSpec O cfg sums rest (sra ++ [uid])
              (emitRows rows srr).2.2.1).seenSra := by
          conv_lhs => unfold ingestVisSpec
          rw [hbo]
        rw [this]
        exact ih _ _ u hu' hok

theorem ingestVisSpec_sraMarks_ok (O : NcbiOracle) (cfg : BuildCfg)
    (sums : List (String × SraSummary)) :
    ∀ (l sra srr : List String) (u : String),
      u ∈ (ingestVisSpec O cfg sums l sra srr).sraMarks →
      ∃ rows, buildOutcome O cfg u (summaryFor sums u) = .ok rows := by
  intro l
  induction l with
  | nil => intro sra srr u hu; cases hu
  | cons uid rest ih =>
    intro sra srr u hu
    cases hbo : buildOutcome O cfg uid (summaryFor sums uid) with
    | error e =>
      have : (ingestVisSpec O cfg sums (uid :: rest) sra srr).sraMarks =
          (ingestVisSpec O cfg sums rest sra srr).sraMarks := by
        conv_lhs => unfold ingestVisSpec
        rw [hbo]
      rw [this] at hu
      exact ih sra srr u hu
    | ok rows =>
      have : (ingestVisSpec O cfg sums (uid :: rest) sra srr).sraMarks =
          uid :: (ingestVisSpec O cfg sums rest (sra ++ [uid])
            (emitRows rows srr).2.2.1).sraMarks := by
        conv_lhs => unfold ingestVisSpec
        rw [hbo]
      rw [this] at hu
      rcases List.mem_cons.1 hu with rfl | hu'
      · exact ⟨rows, hbo⟩
      · exact ih _ _ u hu'

theorem ingestVisSpec_seenSra_from (O : NcbiOracle) (cfg : BuildCfg)
    (sums : List (String × SraSummary)) :
    ∀ (l sra srr : List String) (x : String),
      x ∈ (ingestVisSpec O cfg sums l sra srr).seenSra →
      x ∈ sra ∨ ∃ rows, buildOutcome O cfg x (summaryFor sums x) = .ok rows := by
  intro l
  induction l with
  | nil => intro sra srr x hx; exact Or.inl hx
  | cons uid rest ih =>
    intro sra srr x hx
    cases hbo : buildOutcome O cfg uid (summaryFor sums uid) with
    | error e =>
      have : (ingestVisSpec O cfg sums (uid :: rest) sra srr).seenSra =
          (ingestVisSpec O cfg sums rest sra srr).seenSra := by
        conv_lhs => unfold ingestVisSpec
        rw [hbo]
      rw [this] at hx
      exact ih sra srr x hx
    | ok rows =>
      have : (ingestVisSpec O cfg sums (uid :: rest) sra srr).seenSra =
          (ingestVisSpec O cfg sums rest (sra ++ [uid])
            (emitRows rows srr).2.2.1).seenSra := by
        conv_lhs => unfold ingestVisSpec
        rw [hbo]
      rw [this] at hx
      rcases ih _ _ x hx with hx' | hok
      · rcases List.mem_append.1 hx' with hx'' | hx''
        · exact Or.inl hx''
        · simp only [List.mem_singleton] at hx''
          subst hx''
          exact Or.inr ⟨rows, hbo⟩
      · exact Or.inr hok

/-- Dropping a deterministically failing uid from the batch changes only
the error counter. -/
theorem ingestVisSpec_skip_error (O : NcbiOracle) (cfg : BuildCfg)
    (sums : List (String × SraSummary)) (u : String)
    (herr : ∃ e, buildOutcome O cfg u (summaryFor sums u) = .error e) :
    ∀ (pre post sra srr : List String),
      ingestVisSpec O cfg sums (pre ++ u :: post) sra srr =
        (let v := ingestVisSpec O cfg sums (pre ++ post) sra srr
         { v with errCount := v.errCount + 1 }) := by
  intro pre
  obtain ⟨e, he⟩ := herr
  induction pre with
  | nil =>
    intro post sra srr
    show ingestVisSpec O cfg sums (u :: post) sra srr = _
    conv_lhs => unfold ingestVisSpec
    rw [he]
    rfl
  | cons p pre' ih =>
    intro post sra srr
    cases hbo : buildOutcome O cfg p (summaryFor sums p) with
    | error e' =>
      have hl : ingestVisSpec O cfg sums ((p :: pre') ++ u :: post) sra srr =
          (let v := ingestVisSpec O cfg sums (pre' ++ u :: post) sra srr
           { v with errCount := v.errCount + 1 }) := by
        show ingestVisSpec O cfg sums (p :: (pre' ++ u :: post)) sra srr = _
        conv_lhs => unfold ingestVisSpec
        rw [hbo]
      have hr : ingestVisSpec O cfg sums ((p :: pre') ++ post) sra srr =
          (let v := ingestVisSpec O cfg sums (pre' ++ post) sra srr
           { v with errCount := v.errCount + 1 }) := by
        show ingestVisSpec O cfg sums (p :: (pre' ++ post)) sra srr = _
        conv_lhs => unfold ingestVisSpec
        rw [hbo]
      rw [hl, hr, ih post sra srr]
    | ok rows =>
      have hl : ingestVisSpec O cfg sums ((p :: pre') ++ u :: post) sra srr =
          (let em := emitRows rows srr
           let v := ingestVisSpec O cfg sums (pre' ++ u :: post) (sra ++ [p])
             em.2.2.1
           { v with
             added := em.1 ++ v.added
             sraMarks := p :: v.sraMarks
             srrMarks := em.2.1 ++ v.srrMarks
             okCount := v.okCount + 1
             skipSeen := em.2.2.2 + v.skipSeen }) := by
        show ingestVisSpec O cfg sums (p :: (pre' ++ u :: post)) sra srr = _
        conv_lhs => unfold ingestVisSpec
        rw [hbo]
      have hr : ingestVisSpec O cfg sums ((p :: pre') ++ post) sra srr =
          (let em := emitRows rows srr
           let v := ingestVisSpec O cfg sums (pre' ++ post) (sra ++ [p])
             em.2.2.1
           { v with
             added := em.1 ++ v.added
             sraMarks := p :: v.sraMarks
             srrMarks := em.2.1 ++ v.srrMarks
             okCount := v.okCount + 1
             skipSeen := em.2.2.2 + v.skipSeen }) := by
        show ingestVisSpec O cfg sums (p :: (pre' ++ post)) sra srr = _
        conv_lhs => unfold ingestVisSpec
        rw [hbo]
      rw [hl, hr]
      simp only [ih post (sra ++ [p]) (emitRows rows srr).2.2.1]

theorem stringList_contains_iff (l : List String) (a : String) :
    l.contains a = true ↔ a ∈ l := by
  simp [List.contains]

/-- C2: running `ingest_uids_to_srr` twice with identical ids and summaries
yields, on the second run, zero added records, empty mark lists (so
`append_lines` appends nothing to either seen-id file), and an unchanged
state: seen sets and all three caches are exactly those left by the first
run.  The external world is the deterministic oracle `O`; the caches must
initially be consistent with it (which holds for caches populated by these
very functions, in particular for empty caches). -/
theorem ingest_uids_to_srr_idempotent (O : NcbiOracle) (cfg : BuildCfg)
    (uids : List String) (sums : List (String × SraSummary))
    (st : IngestState) (h : CachesOk O st.caches) :
    (ingest_uids_to_srr O cfg uids sums
      (ingest_uids_to_srr O cfg uids sums st).state).added = [] ∧
    (ingest_uids_to_srr O cfg uids sums
      (ingest_uids_to_srr O cfg uids sums st).state).sraMarks = [] ∧
    (ingest_uids_to_srr O cfg uids sums
      (ingest_uids_to_srr O cfg uids sums st).state).srrMarks = [] ∧
    (ingest_uids_to_srr O cfg uids sums
      (ingest_uids_to_srr O cfg uids sums st).state).state =
      (ingest_uids_to_srr O cfg uids sums st).state := by
  have hm := ingestLoop_master O cfg sums
    (uids.filter (fun u => !(st.seenSra.contains u))) st h
  obtain ⟨m1, m2, m3, m4, m5, m6, m7, m8, m9, m10, m11⟩ := hm
  have hr1 : ingest_uids_to_srr O cfg uids sums st = ingestLoop O cfg sums
      (uids.filter (fun u => !(st.seenSra.contains u))) st := rfl
  have hall : ∀ u ∈ uids.filter (fun x =>
      !((ingest_uids_to_srr O cfg uids sums st).state.seenSra.contains x)),
      (∃ e, buildOutcome O cfg u (summaryFor sums u) = .error e) ∧
      buildSettled O cfg u (summaryFor sums u)
        (ingest_uids_to_srr O cfg uids sums st).state.caches := by
    intro u hu
    have hmem := List.mem_filter.1 hu
    have hnotr1 : ¬ u ∈ (ingest_uids_to_srr O cfg uids sums st).state.seenSra := by
      intro hmem2
      have hcb := hmem.2
      rw [Bool.not_eq_true'] at hcb
      rw [(stringList_contains_iff _ _).2 hmem2] at hcb
      cases hcb
    have hnotst : ¬ u ∈ st.seenSra := by
      intro hst
      apply hnotr1
      rw [hr1, m7]
      exact ingestVisSpec_seenSra_super O cfg sums _ _ _ u hst
    have hu1 : u ∈ uids.filter (fun x => !(st.seenSra.contains x)) := by
      refine List.mem_filter.2 ⟨hmem.1, ?_⟩
      rw [Bool.not_eq_true']
      cases hc : st.seenSra.contains u with
      | false => rfl
      | true => exact absurd ((stringList_contains_iff _ _).1 hc) hnotst
    constructor
    · cases hbo : buildOutcome O cfg u (summaryFor sums u) with
      | error e => exact ⟨e, rfl⟩
      | ok rows =>
        exfalso
        apply hnotr1
        rw [hr1, m7]
        exact ingestVisSpec_ok_mem O cfg sums _ _ _ u hu1 ⟨rows, hbo⟩
    · rw [hr1]
      exact m11 u hu1
  have hok1 : CachesOk O (ingest_uids_to_srr O cfg uids sums st).state.caches := by
    rw [hr1]
    exact m9
  have hfin := ingestLoop_all_errors O cfg sums
    (uids.filter (fun x =>
      !((ingest_uids_to_srr O cfg uids sums st).state.seenSra.contains x)))
    (ingest_uids_to_srr O cfg uids sums st).state hok1 hall
  have h2 : ingest_uids_to_srr O cfg uids sums
      (ingest_uids_to_srr O cfg uids sums st).state =
      ingestLoop O cfg sums
        (uids.filter (fun x =>
          !((ingest_uids_to_srr O cfg uids sums st).state.seenSra.contains x)))
        (ingest_uids_to_srr O cfg uids sums st).state := rfl
  rw [h2, hfin]
  exact ⟨rfl, rfl, rfl, rfl⟩

/-- C8: a uid whose processing raises does not abort the batch: compared to
the same ingest run without that uid, the added records, both mark lists,
the ok/skip counters and the final seen sets are identical; only the
`sra_uid_errors` counter is one higher.  Sibling records are therefore
unaffected by the failure. -/
theorem ingest_failure_isolation (O : NcbiOracle) (cfg : BuildCfg)
    (sums : List (String × SraSummary)) (st : IngestState)
    (pre post : List String) (u : String)
    (h : CachesOk O st.caches)
    (herr : ∃ e, buildOutcome O cfg u (summaryFor sums u) = .error e)
    (hnew : ¬ u ∈ st.seenSra) :
    (ingest_uids_to_srr O cfg (pre ++ u :: post) sums st).added =
      (ingest_uids_to_srr O cfg (pre ++ post) sums st).added ∧
    (ingest_uids_to_srr O cfg (pre ++ u :: post) sums st).sraMarks =
      (ingest_uids_to_srr O cfg (pre ++ post) sums st).sraMarks ∧
    (ingest_uids_to_srr O cfg (pre ++ u :: post) sums st).srrMarks =
      (ingest_uids_to_srr O cfg (pre ++ post) sums st).srrMarks ∧
    (ingest_uids_to_srr O cfg (pre ++ u :: post) sums st).okCount =
      (ingest_uids_to_srr O cfg (pre ++ post) sums st).okCount ∧
    (ingest_uids_to_srr O cfg (pre ++ u :: post) sums st).errCount =
      (ingest_uids_to_srr O cfg (pre ++ post) sums st).errCount + 1 ∧
    (ingest_uids_to_srr O cfg (pre ++ u :: post) sums st).skipSeen =
      (ingest_uids_to_srr O cfg (pre ++ post) sums st).skipSeen ∧
    (ingest_uids_to_srr O cfg (pre ++ u :: post) sums st).state.seenSra =
      (ingest_uids_to_srr O cfg (pre ++ post) sums st).state.seenSra ∧
    (ingest_uids_to_srr O cfg (pre ++ u :: post) sums st).state.seenSrr =
      (ingest_uids_to_srr O cfg (pre ++ post) sums st).state.seenSrr := by
  have hpu : (fun x => !(st.seenSra.contains x)) u = true := by
    simp only [Bool.not_eq_true']
    cases hc : st.seenSra.contains u with
    | false => rfl
    | true => exact absurd ((stringList_contains_iff _ _).1 hc) hnew
  have hf1 : (pre ++ u :: post).filter (fun x => !(st.seenSra.contains x)) =
      pre.filter (fun x => !(st.seenSra.contains x)) ++
        u :: post.filter (fun x => !(st.seenSra.contains x)) := by
    rw [List.filter_append, List.filter_cons, if_pos hpu]
  have hf2 : (pre ++ post).filter (fun x => !(st.seenSra.contains x)) =
      pre.filter (fun x => !(st.seenSra.contains x)) ++
        post.filter (fun x => !(st.seenSra.contains x)) :=
    List.filter_append _ _
  have hm1 := ingestLoop_master O cfg sums
    ((pre ++ u :: post).filter (fun x => !(st.seenSra.contains x))) st h
  have hm2 := ingestLoop_master O cfg sums
    ((pre ++ post).filter (fun x => !(st.seenSra.contains x))) st h
  have hskip := ingestVisSpec_skip_error O cfg sums u herr
    (pre.filter (fun x => !(st.seenSra.contains x)))
    (post.filter (fun x => !(st.seenSra.contains x))) st.seenSra st.seenSrr
  have hr1 : ingest_uids_to_srr O cfg (pre ++ u :: post) sums st =
      ingestLoop O cfg sums
        ((pre ++ u :: post).filter (fun x => !(st.seenSra.contains x))) st :=
    rfl
  have hr2 : ingest_uids_to_srr O cfg (pre ++ post) sums st =
      ingestLoop O cfg sums
        ((pre ++ post).filter (fun x => !(st.seenSra.contains x))) st := rfl
  refine ⟨?_, ?_, ?_, ?_, ?_, ?_, ?_, ?_⟩
  · rw [hr1, hr2, hm1.1, hm2.1, hf1, hf2, hskip]
  · rw [hr1, hr2, hm1.2.1, hm2.2.1, hf1, hf2, hskip]
  · rw [hr1, hr2, hm1.2.2.1, hm2.2.2.1, hf1, hf2, hskip]
  · rw [hr1, hr2, hm1.2.2.2.1, hm2.2.2.2.1, hf1, hf2, hskip]
  · rw [hr1, hr2, hm1.2.2.2.2.1, hm2.2.2.2.2.1, hf1, hf2, hskip]
  · rw [hr1, hr2, hm1.2.2.2.2.2.1, hm2.2.2.2.2.2.1, hf1, hf2, hskip]
  · rw [hr1, hr2, hm1.2.2.2.2.2.2.1, hm2.2.2.2.2.2.2.1, hf1, hf2, hskip]
  · rw [hr1, hr2, hm1.2.2.2.2.2.2.2.1, hm2.2.2.2.2.2.2.2.1, hf1, hf2, hskip]

/-- C10: a raw id whose processing fails is committed nowhere: it is absent
from `sra_mark_seen` (so never appended to the seen-uid file) and absent
from the in-memory `seen_sra` set after the run, so a subsequent run over
the same id list selects it again in `new_uids`. -/
theorem ingest_failed_uid_not_committed (O : NcbiOracle) (cfg : BuildCfg)
    (sums : List (String × SraSummary)) (uids : List String)
    (st : IngestState) (u : String)
    (h : CachesOk O st.caches)
    (herr : ∃ e, buildOutcome O cfg u (summaryFor sums u) = .error e)
    (hnew : ¬ u ∈ st.seenSra) :
    ¬ u ∈ (ingest_uids_to_srr O cfg uids sums st).sraMarks ∧
    ¬ u ∈ (ingest_uids_to_srr O cfg uids sums st).state.seenSra ∧
    (u ∈ uids → u ∈ uids.filter (fun x =>
      !((ingest_uids_to_srr O cfg uids sums st).state.seenSra.contains x))) := by
  obtain ⟨e, he⟩ := herr
  have hr : ingest_uids_to_srr O cfg uids sums st = ingestLoop O cfg sums
      (uids.filter (fun x => !(st.seenSra.contains x))) st := rfl
  have hm := ingestLoop_master O cfg sums
    (uids.filter (fun x => !(st.seenSra.contains x))) st h
  have hmarks : ¬ u ∈ (ingest_uids_to_srr O cfg uids sums st).sraMarks := by
    intro hmem
    rw [hr, hm.2.1] at hmem
    obtain ⟨rows, hok⟩ := ingestVisSpec_sraMarks_ok O cfg sums _ _ _ u hmem
    rw [he] at hok
    cases hok
  have hseen : ¬ u ∈ (ingest_uids_to_srr O cfg uids sums st).state.seenSra := by
    intro hmem
    rw [hr, hm.2.2.2.2.2.2.1] at hmem
    rcases ingestVisSpec_seenSra_from O cfg sums _ _ _ u hmem with hst | ⟨rows, hok⟩
    · exact hnew hst
    · rw [he] at hok
      cases hok
  refine ⟨hmarks, hseen, ?_⟩
  intro hu
  refine List.mem_filter.2 ⟨hu, ?_⟩
  simp only [Bool.not_eq_true']
  cases hc : (ingest_uids_to_srr O cfg uids sums st).state.seenSra.contains u with
  | false => rfl
  | true => exact absurd ((stringList_contains_iff _ _).1 hc) hseen

/-! ### Concrete fixtures for witnesses -/

/-- An oracle whose every external call fails (network down). -/
def oracleAllErr : NcbiOracle :=
  { runinfo := fun _ => .error "net"
    biosample := fun _ => .error "net"
    bpSearch := fun _ => .error "net"
    bpSummary := fun _ => .error "net" }

/-- An oracle whose bioproject search succeeds with no hits. -/
def oracleNotFound : NcbiOracle :=
  { runinfo := fun _ => .error "net"
    biosample := fun _ => .error "net"
    bpSearch := fun _ => .ok []
    bpSummary := fun _ => .error "net" }

def cfg0 : BuildCfg :=
  { latlonEx := fun _ => none
    fetchBs := true
    fetchBp := true
    maxRows := 0 }

def caches0 : Caches := { bs := [], uc := [], bp := [] }

def state0 : IngestState := { seenSra := [], seenSrr := [], caches := caches0 }

theorem cachesOk_empty (O : NcbiOracle) : CachesOk O caches0 := by
  refine ⟨?_, ?_, ?_⟩ <;> intro p hp <;> simp [caches0] at hp

/-! ### Cache hit lemmas -/

theorem get_biosample_details_hit (O : NcbiOracle) (acc : String)
    (c : Caches) (v : BsDetails) (ha : pyStrip acc ≠ "")
    (hv : alFind c.bs (pyStrip acc) = some v) :
    get_biosample_details O acc c = (v, c, 0) := by
  unfold get_biosample_details
  simp [ha, hv]

theorem get_bioproject_details_hit (O : NcbiOracle) (acc : String)
    (c : Caches) (v : BpVal) (ha : pyUpper (pyStrip acc) ≠ "")
    (hv : alFind c.bp (pyUpper (pyStrip acc)) = some v) :
    get_bioproject_details O acc c = (.ok v, c, 0) := by
  unfold get_bioproject_details
  simp [ha, hv]

/-- C9 (amended): failed lookups are tombstoned and not retried for (a)
every biosample fetch failure, (b) bioproject accessions failing the
accession pattern, and (c) bioproject accessions whose uid search comes
back empty; after each such failure the key is present in the cache
(distinct from never-looked-up) and a repeat call returns the same value,
changes nothing, and performs zero external calls.  (A bioproject *fetch*
error is NOT tombstoned — the separate counterexample.) -/
theorem cache_tombstones_amended (O : NcbiOracle) (acc : String)
    (c : Caches) :
    ((∃ e, O.biosample (pyStrip acc) = .error e) → pyStrip acc ≠ "" →
      alFind c.bs (pyStrip acc) = none →
      (alFind (get_biosample_details O acc c).2.1.bs (pyStrip acc)).isSome ∧
      get_biosample_details O acc (get_biosample_details O acc c).2.1 =
        ((get_biosample_details O acc c).1,
         (get_biosample_details O acc c).2.1, 0)) ∧
    (pyUpper (pyStrip acc) ≠ "" →
      matchBioproject (pyUpper (pyStrip acc)) = false →
      alFind c.bp (pyUpper (pyStrip acc)) = none →
      (alFind (get_bioproject_details O acc c).2.1.bp
        (pyUpper (pyStrip acc))).isSome ∧
      get_bioproject_details O acc (get_bioproject_details O acc c).2.1 =
        ((get_bioproject_details O acc c).1,
         (get_bioproject_details O acc c).2.1, 0)) ∧
    (CachesOk O c → pyUpper (pyStrip acc) ≠ "" →
      matchBioproject (pyUpper (pyStrip acc)) = true →
      alFind c.bp (pyUpper (pyStrip acc)) = none →
      uidOutcome O (pyUpper (pyStrip (pyUpper (pyStrip acc)))) = .ok "" →
      (alFind (get_bioproject_details O acc c).2.1.bp
        (pyUpper (pyStrip acc))).isSome ∧
      get_bioproject_details O acc (get_bioproject_details O acc c).2.1 =
        ((get_bioproject_details O acc c).1,
         (get_bioproject_details O acc c).2.1, 0)) := by
  refine ⟨?_, ?_, ?_⟩
  · rintro ⟨e, he⟩ ha hf
    have hres : get_biosample_details O acc c =
        ({ attributes := [], title := "", organism := "",
           accession := pyStrip acc, error := e },
         { c with bs := c.bs ++ [(pyStrip acc,
             { attributes := [], title := "", organism := "",
               accession := pyStrip acc, error := e })] }, 1) := by
      unfold get_biosample_details
      simp [ha, hf, he]
    have hkey : alFind (get_biosample_details O acc c).2.1.bs (pyStrip acc) =
        some { attributes := [], title := "", organism := "",
               accession := pyStrip acc, error := e } := by
      rw [hres]
      show alFind (c.bs ++ [_]) (pyStrip acc) = _
      rw [alFind_append_none _ hf, alFind_singleton]
      simp
    refine ⟨by rw [hkey]; rfl, ?_⟩
    rw [get_biosample_details_hit O acc _ _ ha hkey, hres]
  · intro ha hm hf
    have hres : get_bioproject_details O acc c =
        (.ok (.tomb (pyUpper (pyStrip acc)) "invalid_accession"),
         { c with bp := c.bp ++ [(pyUpper (pyStrip acc),
             .tomb (pyUpper (pyStrip acc)) "invalid_accession")] }, 0) := by
      unfold get_bioproject_details
      simp [ha, hf, hm]
    have hkey : alFind (get_bioproject_details O acc c).2.1.bp
        (pyUpper (pyStrip acc)) =
        some (.tomb (pyUpper (pyStrip acc)) "invalid_accession") := by
      rw [hres]
      show alFind (c.bp ++ [_]) (pyUpper (pyStrip acc)) = _
      rw [alFind_append_none _ hf, alFind_singleton]
      simp
    refine ⟨by rw [hkey]; rfl, ?_⟩
    rw [get_bioproject_details_hit O acc _ _ ha hkey, hres]
  · intro hok ha hm' hf huo
    have hm : ¬ matchBioproject (pyUpper (pyStrip acc)) = false := by
      rw [hm']; simp
    rcases hRv : bioproject_accession_to_uid O (pyUpper (pyStrip acc)) c
      with ⟨u1, c1, k1⟩
    have hspec := bioproject_accession_to_uid_spec O (pyUpper (pyStrip acc))
      c hok
    rw [hRv] at hspec
    obtain ⟨hu1, hok1, hle1, hbs1, hbp1, huset⟩ := hspec
    simp only [] at hu1 hok1 hle1 hbs1 hbp1 huset
    have hu1' : u1 = .ok none := by
      rw [hu1]
      unfold uidTop
      by_cases ha2 : pyUpper (pyStrip (pyUpper (pyStrip acc))) = ""
      · simp [ha2]
      · simp [ha2, huo]
    have hres : get_bioproject_details O acc c =
        (.ok (.tomb (pyUpper (pyStrip acc)) "uid_not_found"),
         { c1 with bp := c1.bp ++ [(pyUpper (pyStrip acc),
             .tomb (pyUpper (pyStrip acc)) "uid_not_found")] }, k1) := by
      unfold get_bioproject_details
      simp [ha, hf, hm, hRv, hu1']
    have hkey : alFind (get_bioproject_details O acc c).2.1.bp
        (pyUpper (pyStrip acc)) =
        some (.tomb (pyUpper (pyStrip acc)) "uid_not_found") := by
      rw [hres]
      show alFind (c1.bp ++ [_]) (pyUpper (pyStrip acc)) = _
      rw [hbp1, alFind_append_none _ hf, alFind_singleton]
      simp
    refine ⟨by rw [hkey]; rfl, ?_⟩
    rw [get_bioproject_details_hit O acc _ _ ha hkey, hres]

/-- C9 (counterexample): a bioproject lookup that fails with a *fetch
error* stores no tombstone (the caches are unchanged), so the subsequent
call with the same accession performs an external call again (one fetch,
not zero), contradicting the claim. -/
theorem cache_tombstones_counterexample :
    (get_bioproject_details oracleAllErr "PRJNA1" caches0).1 =
      .error "net" ∧
    (get_bioproject_details oracleAllErr "PRJNA1" caches0).2.1 = caches0 ∧
    (get_bioproject_details oracleAllErr "PRJNA1"
      (get_bioproject_details oracleAllErr "PRJNA1" caches0).2.1).2.2 = 1 :=
  ⟨rfl, by decide⟩

/-- C9 (witness): the three tombstone cases at concrete inputs. -/
theorem cache_tombstones_amended_witness :
    ((alFind (get_biosample_details oracleAllErr "SAMN1" caches0).2.1.bs
        (pyStrip "SAMN1")).isSome ∧
      get_biosample_details oracleAllErr "SAMN1"
          (get_biosample_details oracleAllErr "SAMN1" caches0).2.1 =
        ((get_biosample_details oracleAllErr "SAMN1" caches0).1,
         (get_biosample_details oracleAllErr "SAMN1" caches0).2.1, 0)) ∧
    ((alFind (get_bioproject_details oracleAllErr "XYZ" caches0).2.1.bp
        (pyUpper (pyStrip "XYZ"))).isSome ∧
      get_bioproject_details oracleAllErr "XYZ"
          (get_bioproject_details oracleAllErr "XYZ" caches0).2.1 =
        ((get_bioproject_details oracleAllErr "XYZ" caches0).1,
         (get_bioproject_details oracleAllErr "XYZ" caches0).2.1, 0)) ∧
    ((alFind (get_bioproject_details oracleNotFound "PRJNA1" caches0).2.1.bp
        (pyUpper (pyStrip "PRJNA1"))).isSome ∧
      get_bioproject_details oracleNotFound "PRJNA1"
          (get_bioproject_details oracleNotFound "PRJNA1" caches0).2.1 =
        ((get_bioproject_details oracleNotFound "PRJNA1" caches0).1,
         (get_bioproject_details oracleNotFound "PRJNA1" caches0).2.1, 0)) :=
  ⟨(cache_tombstones_amended oracleAllErr "SAMN1" caches0).1
      ⟨"net", rfl⟩ (by decide) rfl,
   (cache_tombstones_amended oracleAllErr "XYZ" caches0).2.1
      (by decide) (by decide) rfl,
   (cache_tombstones_amended oracleNotFound "PRJNA1" caches0).2.2
      (cachesOk_empty oracleNotFound) (by decide) (by decide) rfl rfl⟩

/-- C2 (witness): a concrete double run over one uid with a failing
oracle and empty initial state. -/
theorem ingest_uids_to_srr_idempotent_witness :
    CachesOk oracleAllErr state0.caches ∧
    ((ingest_uids_to_srr oracleAllErr cfg0 ["100"] []
        (ingest_uids_to_srr oracleAllErr cfg0 ["100"] [] state0).state).added
        = [] ∧
     (ingest_uids_to_srr oracleAllErr cfg0 ["100"] []
        (ingest_uids_to_srr oracleAllErr cfg0 ["100"] [] state0).state).sraMarks
        = [] ∧
     (ingest_uids_to_srr oracleAllErr cfg0 ["100"] []
        (ingest_uids_to_srr oracleAllErr cfg0 ["100"] [] state0).state).srrMarks
        = [] ∧
     (ingest_uids_to_srr oracleAllErr cfg0 ["100"] []
        (ingest_uids_to_srr oracleAllErr cfg0 ["100"] [] state0).state).state =
       (ingest_uids_to_srr oracleAllErr cfg0 ["100"] [] state0).state) :=
  ⟨cachesOk_empty oracleAllErr,
   ingest_uids_to_srr_idempotent oracleAllErr cfg0 ["100"] [] state0
     (cachesOk_empty oracleAllErr)⟩

/-- C8 (witness): the isolation theorem at a concrete failing uid. -/
theorem ingest_failure_isolation_witness :
    CachesOk oracleAllErr state0.caches ∧
    (∃ e, buildOutcome oracleAllErr cfg0 "77" (summaryFor [] "77") =
      .error e) ∧
    ¬ "77" ∈ state0.seenSra ∧
    (ingest_uids_to_srr oracleAllErr cfg0 ([] ++ "77" :: []) [] state0).added =
      (ingest_uids_to_srr oracleAllErr cfg0 ([] ++ []) [] state0).added ∧
    (ingest_uids_to_srr oracleAllErr cfg0 ([] ++ "77" :: []) [] state0).errCount =
      (ingest_uids_to_srr oracleAllErr cfg0 ([] ++ []) [] state0).errCount + 1 :=
  ⟨cachesOk_empty oracleAllErr, ⟨"net", rfl⟩, by simp [state0],
   (ingest_failure_isolation oracleAllErr cfg0 [] state0 [] [] "77"
     (cachesOk_empty oracleAllErr) ⟨"net", rfl⟩ (by simp [state0])).1,
   (ingest_failure_isolation oracleAllErr cfg0 [] state0 [] [] "77"
     (cachesOk_empty oracleAllErr) ⟨"net", rfl⟩
     (by simp [state0])).2.2.2.2.1⟩

/-- C10 (witness): a concrete failing uid is neither marked nor remembered
and is selected again by a second run's filter. -/
theorem ingest_failed_uid_not_committed_witness :
    CachesOk oracleAllErr state0.caches ∧
    (∃ e, buildOutcome oracleAllErr cfg0 "88" (summaryFor [] "88") =
      .error e) ∧
    ¬ "88" ∈ state0.seenSra ∧
    ¬ "88" ∈ (ingest_uids_to_srr oracleAllErr cfg0 ["88"] [] state0).sraMarks ∧
    ¬ "88" ∈ (ingest_uids_to_srr oracleAllErr cfg0 ["88"] []
        state0).state.seenSra ∧
    ("88" ∈ (["88"] : List String) → "88" ∈ (["88"] : List String).filter
      (fun x => !((ingest_uids_to_srr oracleAllErr cfg0 ["88"] []
        state0).state.seenSra.contains x))) :=
  ⟨cachesOk_empty oracleAllErr, ⟨"net", rfl⟩, by simp [state0],
   (ingest_failed_uid_not_committed oracleAllErr cfg0 [] ["88"] state0 "88"
     (cachesOk_empty oracleAllErr) ⟨"net", rfl⟩ (by simp [state0])).1,
   (ingest_failed_uid_not_committed oracleAllErr cfg0 [] ["88"] state0 "88"
     (cachesOk_empty oracleAllErr) ⟨"net", rfl⟩ (by simp [state0])).2.1,
   (ingest_failed_uid_not_committed oracleAllErr cfg0 [] ["88"] state0 "88"
     (cachesOk_empty oracleAllErr) ⟨"net", rfl⟩ (by simp [state0])).2.2⟩

/-! ### urbanscope_radar_v3.py — project keys, `run_day` and the `main` loop

The radar script queries NCBI per day (`esearch`/`esummary`/`elink`); those
network results are modelled as the inputs of one `RunDayInput` per day.
`summaries` is the list of SRA docsums for the not-yet-seen direct hits,
`pmidToSra` the elink map (iteration order of `pmid_to_sra.items()`), and
`uidSummary` the docsum map keyed by `str(r.get("sra_uid"))`.  The heuristic
helpers `classify_study_type` and `extract_city_country` are taken as
parameters (`RadarHeur`): no claim here depends on their internals, only on
where their results are written and tested for truthiness.  Display-only
record fields that the program never reads back (`sra_link`, `paper`, the
wall-clock `ingested_utc`) are omitted. -/

structure RadarSummary where
  sra_uid : String
  title : String
  bioproject : String
  deriving Repr, DecidableEq

structure RadarHeur where
  classify_study_type : String → String
  extract_city_country : String → Option String × Option String

structure RadarCfg where
  heur : RadarHeur
  query : String
  dayIso : String
  require_location : Bool

/-- `(x or "")` truthiness on an optional string: `None` and `""` are falsy. -/
def optFalsy : Option String → Bool
  | none => true
  | some s => s == ""

/-- `s or None` for a string `s`. -/
def pyOrNone (s : String) : Option String :=
  if s = "" then none else some s

/-- `project_key_from_summary`: prefer the stripped+uppercased BioProject
accession, else the `UID:`-prefixed stripped uid, else `""`. -/
def project_key_from_summary (s : RadarSummary) : String :=
  let bp := pyUpper (pyStrip s.bioproject)
  let uid := pyStrip s.sra_uid
  if bp ≠ "" then bp
  else if uid ≠ "" then "UID:" ++ uid
  else ""

structure RadarRecord where
  source : String
  day_utc : String
  query : String
  study_type : String
  city : Option String
  country : Option String
  title : Option String
  pmid : Option String
  sra_uid : String
  bioproject : Option String
  deriving Repr, DecidableEq

/-- `extract_city_country` applied to the stripped title, as branch A
computes `city, country`. -/
def ccOfA (cfg : RadarCfg) (s : RadarSummary) : Option String × Option String :=
  cfg.heur.extract_city_country (pyStrip s.title)

/-- Branch B's `extract_city_country(title) if title else (None, None)`. -/
def ccOfB (cfg : RadarCfg) (s : RadarSummary) : Option String × Option String :=
  if pyStrip s.title ≠ "" then cfg.heur.extract_city_country (pyStrip s.title)
  else (none, none)

/-- The drop test `require_location and (not city or not country)`. -/
def radarLoc (cfg : RadarCfg) (cc : Option String × Option String) : Bool :=
  cfg.require_location && (optFalsy cc.1 || optFalsy cc.2)

/-- The dict appended by branch A (direct SRA search) of `run_day`. -/
def mkRecA (cfg : RadarCfg) (s : RadarSummary) : RadarRecord :=
  let title := pyStrip s.title
  let cc := cfg.heur.extract_city_country title
  { source := "sra_search"
    day_utc := cfg.dayIso
    query := cfg.query
    study_type := cfg.heur.classify_study_type title
    city := cc.1
    country := cc.2
    title := some title
    pmid := none
    sra_uid := pyStrip s.sra_uid
    bioproject := (pyOrNone (pyUpper (pyStrip s.bioproject))) }

/-- Branch A of `run_day`: the `for s in summaries` loop, carrying the
accumulators `new_projects`, `new_records`, `new_seen`. -/
def radarStepA (cfg : RadarCfg) (seenProjects : List String) :
    List RadarSummary → List String → List RadarRecord → List String →
    List String × List RadarRecord × List String
  | [], newP, recs, seen => (newP, recs, seen)
  | s :: rest, newP, recs, seen =>
    if pyStrip s.sra_uid = "" ∨ project_key_from_summary s = "" then
      radarStepA cfg seenProjects rest newP recs seen
    else if project_key_from_summary s ∈ seenProjects ∨
        project_key_from_summary s ∈ newP then
      radarStepA cfg seenProjects rest newP recs seen
    else if radarLoc cfg (ccOfA cfg s) then
      radarStepA cfg seenProjects rest newP recs seen
    else
      radarStepA cfg seenProjects rest
        (newP ++ [project_key_from_summary s])
        (recs ++ [mkRecA cfg s])
        (seen ++ ["sra:" ++ pyStrip s.sra_uid])

/-- The inner `for uid in uids` selection loop of branch B: first uid whose
project key is non-empty and fresh; a miss in `uid_summary` falls back to
`{"sra_uid": uid, "title": "", "bioproject": ""}`. -/
def chooseUid (seenProjects newP : List String)
    (uidSummary : List (String × RadarSummary)) :
    List String → Option (String × RadarSummary)
  | [] => none
  | uid :: rest =>
    let s := (alFind uidSummary uid).getD
      { sra_uid := uid, title := "", bioproject := "" }
    if project_key_from_summary s = "" then
      chooseUid seenProjects newP uidSummary rest
    else if project_key_from_summary s ∈ seenProjects ∨
        project_key_from_summary s ∈ newP then
      chooseUid seenProjects newP uidSummary rest
    else some (uid, s)

/-- The dict appended by branch B (PubMed → SRA) of `run_day`. -/
def mkRecB (cfg : RadarCfg) (pmid uid : String) (s : RadarSummary) :
    RadarRecord :=
  let title := pyStrip s.title
  let cc := if title ≠ "" then cfg.heur.extract_city_country title
    else (none, none)
  { source := "pubmed_elink_sra"
    day_utc := cfg.dayIso
    query := cfg.query
    study_type := cfg.heur.classify_study_type
      (if title ≠ "" then title else cfg.query)
    city := cc.1
    country := cc.2
    title := (if title = "" then none else some title)
    pmid := some pmid
    sra_uid := uid
    bioproject := (pyOrNone (pyUpper (pyStrip s.bioproject))) }

/-- Branch B of `run_day`: one representative SRA uid per PubMed article.
The chosen key joins `new_projects` inside the selection loop, before the
`require_location` test, and a falsy chosen uid is skipped after that
(`if not chosen_uid: continue` in the source). -/
def radarStepB (cfg : RadarCfg) (seenProjects : List String)
    (uidSummary : List (String × RadarSummary)) :
    List (String × List String) → List String → List RadarRecord →
    List String → List String × List RadarRecord × List String
  | [], newP, recs, seen => (newP, recs, seen)
  | (pmid, uids) :: rest, newP, recs, seen =>
    match chooseUid seenProjects newP uidSummary uids with
    | none => radarStepB cfg seenProjects uidSummary rest newP recs seen
    | some (uid, s) =>
      if uid = "" then
        radarStepB cfg seenProjects uidSummary rest
          (newP ++ [project_key_from_summary s]) recs seen
      else if radarLoc cfg (ccOfB cfg s) then
        radarStepB cfg seenProjects uidSummary rest
          (newP ++ [project_key_from_summary s]) recs seen
      else
        radarStepB cfg seenProjects uidSummary rest
          (newP ++ [project_key_from_summary s])
          (recs ++ [mkRecB cfg pmid uid s])
          (seen ++ ["pmid:" ++ pmid, "sra:" ++ uid])

/-- One day's network results, at the I/O boundary described above. -/
structure RunDayInput where
  summaries : List RadarSummary
  pmidToSra : List (String × List String)
  uidSummary : List (String × RadarSummary)

/-- The `uniq_ids` pass: keep ids not in `seen_ids` and not yet kept. -/
def dedupSeenAux (seenIds : List String) :
    List String → List String → List String
  | [], _ => []
  | x :: rest, loc =>
    if x ∈ seenIds ∨ x ∈ loc then dedupSeenAux seenIds rest loc
    else x :: dedupSeenAux seenIds rest (loc ++ [x])

/-- `run_day` (v3): branch A, then branch B over branch A's accumulators,
then the `uniq_ids` de-dup and the post-filter dropping direct SRA records
whose uid became seen mid-run.  Returns
`(filtered_records, uniq_ids, new_projects)`; the constant
`touched_years = {day.year}` is omitted. -/
def run_day (cfg : RadarCfg) (seenIds seenProjects : List String)
    (inp : RunDayInput) :
    List RadarRecord × List String × List String :=
  let a := radarStepA cfg seenProjects inp.summaries [] [] []
  let b := radarStepB cfg seenProjects inp.uidSummary inp.pmidToSra
    a.1 a.2.1 a.2.2
  let uniqIds := dedupSeenAux seenIds b.2.2 []
  let filtered := b.2.1.filter (fun r =>
    !((r.source == "sra_search") && (r.sra_uid != "") &&
      (seenIds.contains ("sra:" ++ r.sra_uid))))
  (filtered, uniqIds, b.1)

/-- The persistent state threaded by `main`: the year catalogs plus
`added_records_all` (here one corpus list), `seen_ids` and
`seen_projects`. -/
structure RadarState where
  corpus : List RadarRecord
  seenIds : List String
  seenProjects : List String

/-- One iteration of `main`'s day loop: append the day's records to the
catalog, the new ids to `seen_ids`, the new projects to `seen_projects`. -/
def radar_main_step (cfg : RadarCfg) (st : RadarState) (inp : RunDayInput) :
    RadarState :=
  let r := run_day cfg st.seenIds st.seenProjects inp
  { corpus := st.corpus ++ r.1
    seenIds := st.seenIds ++ r.2.1
    seenProjects := st.seenProjects ++ r.2.2 }

/-- `main`'s day loop over any sequence of days/network results. -/
def radar_main (cfg : RadarCfg) (inps : List RunDayInput) (st : RadarState) :
    RadarState :=
  inps.foldl (radar_main_step cfg) st

/-- The canonical project key carried by a catalog record: its stored
`bioproject` accession if present, else the `UID:` pseudo-key from its
stored uid (the same rule `project_key_from_summary` applies to the
summary the record was built from). -/
def recordProjKey (r : RadarRecord) : String :=
  match r.bioproject with
  | some bp => bp
  | none => if pyStrip r.sra_uid ≠ "" then "UID:" ++ pyStrip r.sra_uid else ""

theorem dropWhile_head_false (p : Char → Bool) (l : List Char) (a : Char)
    (t : List Char) (h : l.dropWhile p = a :: t) : p a = false := by
  have h2 := List.head?_dropWhile_not p l
  rw [h] at h2
  simpa using h2

theorem dropWhile_idem (p : Char → Bool) (l : List Char) :
    (l.dropWhile p).dropWhile p = l.dropWhile p := by
  cases h : l.dropWhile p with
  | nil => rfl
  | cons a t =>
    have ha := dropWhile_head_false p l a t h
    simp [List.dropWhile_cons, ha]

theorem stripChars_idem (l : List Char) :
    stripChars (stripChars l) = stripChars l := by
  unfold stripChars
  set A := l.dropWhile Char.isWhitespace with hA
  set C := A.reverse.dropWhile Char.isWhitespace with hC
  have h1 : C.reverse.dropWhile Char.isWhitespace = C.reverse := by
    cases hB : C.reverse with
    | nil => rfl
    | cons b t =>
      have hCne : C ≠ [] := by
        intro h0
        rw [h0] at hB
        simp at hB
      obtain ⟨s, hs⟩ := List.dropWhile_suffix (l := A.reverse)
        (fun c => Char.isWhitespace c)
      have hCg : C.getLast? = A.reverse.getLast? := by
        rw [← hs, List.getLast?_append_of_ne_nil s hCne]
      have hArev : A.reverse.getLast? = A.head? := by
        rw [← List.head?_reverse A.reverse, List.reverse_reverse]
      have hhead : A.head? = some b := by
        rw [← hArev, ← hCg, ← List.head?_reverse, hB]
        rfl
      have hb : Char.isWhitespace b = false := by
        cases hAc : A with
        | nil => rw [hAc] at hhead; cases hhead
        | cons x xs =>
          rw [hAc] at hhead
          have hx : x = b := by simpa using hhead
          subst hx
          exact dropWhile_head_false Char.isWhitespace l x xs (hA ▸ hAc)
      simp [List.dropWhile_cons, hb]
  rw [h1, List.reverse_reverse, hC, dropWhile_idem]

theorem pyStrip_idem (s : String) : pyStrip (pyStrip s) = pyStrip s := by
  unfold pyStrip
  exact congrArg String.mk (stripChars_idem s.data)

/-- A branch-A record carries exactly the key its summary was tested by. -/
theorem recordProjKey_mkRecA (cfg : RadarCfg) (s : RadarSummary) :
    recordProjKey (mkRecA cfg s) = project_key_from_summary s := by
  unfold recordProjKey mkRecA project_key_from_summary pyOrNone
  by_cases hbp : pyUpper (pyStrip s.bioproject) = ""
  · simp [hbp, pyStrip_idem]
  · simp [hbp]

/-- A branch-B record carries exactly the key its summary was tested by,
provided the summary's `sra_uid` field equals the lookup uid (true of every
entry of `uid_summary`, which is keyed by that very field). -/
theorem recordProjKey_mkRecB (cfg : RadarCfg) (pmid uid : String)
    (s : RadarSummary) (hs : s.sra_uid = uid) :
    recordProjKey (mkRecB cfg pmid uid s) = project_key_from_summary s := by
  unfold recordProjKey mkRecB project_key_from_summary pyOrNone
  by_cases hbp : pyUpper (pyStrip s.bioproject) = ""
  · simp [hbp, hs]
  · simp [hbp]

theorem radarStepA_nil (cfg : RadarCfg) (seenP newP : List String)
    (recs : List RadarRecord) (seen : List String) :
    radarStepA cfg seenP [] newP recs seen = (newP, recs, seen) := rfl

theorem radarStepA_cons_bad (cfg : RadarCfg) (seenP : List String)
    (s : RadarSummary) (rest : List RadarSummary) (newP : List String)
    (recs : List RadarRecord) (seen : List String)
    (h : pyStrip s.sra_uid = "" ∨ project_key_from_summary s = "") :
    radarStepA cfg seenP (s :: rest) newP recs seen =
      radarStepA cfg seenP rest newP recs seen := by
  conv_lhs => unfold radarStepA
  simp [h]

theorem radarStepA_cons_dup (cfg : RadarCfg) (seenP : List String)
    (s : RadarSummary) (rest : List RadarSummary) (newP : List String)
    (recs : List RadarRecord) (seen : List String)
    (h1 : ¬ (pyStrip s.sra_uid = "" ∨ project_key_from_summary s = ""))
    (h2 : project_key_from_summary s ∈ seenP ∨
      project_key_from_summary s ∈ newP) :
    radarStepA cfg seenP (s :: rest) newP recs seen =
      radarStepA cfg seenP rest newP recs seen := by
  conv_lhs => unfold radarStepA
  simp [h1, h2]

theorem radarStepA_cons_loc (cfg : RadarCfg) (seenP : List String)
    (s : RadarSummary) (rest : List RadarSummary) (newP : List String)
    (recs : List RadarRecord) (seen : List String)
    (h1 : ¬ (pyStrip s.sra_uid = "" ∨ project_key_from_summary s = ""))
    (h2 : ¬ (project_key_from_summary s ∈ seenP ∨
      project_key_from_summary s ∈ newP))
    (h3 : radarLoc cfg (ccOfA cfg s) = true) :
    radarStepA cfg seenP (s :: rest) newP recs seen =
      radarStepA cfg seenP rest newP recs seen := by
  conv_lhs => unfold radarStepA
  simp [h1, h2, h3]

theorem radarStepA_cons_keep (cfg : RadarCfg) (seenP : List String)
    (s : RadarSummary) (rest : List RadarSummary) (newP : List String)
    (recs : List RadarRecord) (seen : List String)
    (h1 : ¬ (pyStrip s.sra_uid = "" ∨ project_key_from_summary s = ""))
    (h2 : ¬ (project_key_from_summary s ∈ seenP ∨
      project_key_from_summary s ∈ newP))
    (h3 : radarLoc cfg (ccOfA cfg s) = false) :
    radarStepA cfg seenP (s :: rest) newP recs seen =
      radarStepA cfg seenP rest (newP ++ [project_key_from_summary s])
        (recs ++ [mkRecA cfg s]) (seen ++ ["sra:" ++ pyStrip s.sra_uid]) := by
  conv_lhs => unfold radarStepA
  simp [h1, h2, h3]

theorem radarStepB_nil (cfg : RadarCfg) (seenP : List String)
    (uidSummary : List (String × RadarSummary)) (newP : List String)
    (recs : List RadarRecord) (seen : List String) :
    radarStepB cfg seenP uidSummary [] newP recs seen =
      (newP, recs, seen) := rfl

theorem radarStepB_cons_none (cfg : RadarCfg) (seenP : List String)
    (uidSummary : List (String × RadarSummary)) (pmid : String)
    (uids : List String) (rest : List (String × List String))
    (newP : List String) (recs : List RadarRecord) (seen : List String)
    (h : chooseUid seenP newP uidSummary uids = none) :
    radarStepB cfg seenP uidSummary ((pmid, uids) :: rest) newP recs seen =
      radarStepB cfg seenP uidSummary rest newP recs seen := by
  conv_lhs => unfold radarStepB
  rw [h]

theorem radarStepB_cons_some_empty (cfg : RadarCfg) (seenP : List String)
    (uidSummary : List (String × RadarSummary)) (pmid : String)
    (uids : List String) (rest : List (String × List String))
    (newP : List String) (recs : List RadarRecord) (seen : List String)
    (uid : String) (s : RadarSummary)
    (h : chooseUid seenP newP uidSummary uids = some (uid, s))
    (hu : uid = "") :
    radarStepB cfg seenP uidSummary ((pmid, uids) :: rest) newP recs seen =
      radarStepB cfg seenP uidSummary rest
        (newP ++ [project_key_from_summary s]) recs seen := by
  conv_lhs => unfold radarStepB
  rw [h]
  simp [hu]

theorem radarStepB_cons_some_loc (cfg : RadarCfg) (seenP : List String)
    (uidSummary : List (String × RadarSummary)) (pmid : String)
    (uids : List String) (rest : List (String × List String))
    (newP : List String) (recs : List RadarRecord) (seen : List String)
    (uid : String) (s : RadarSummary)
    (h : chooseUid seenP newP uidSummary uids = some (uid, s))
    (hu : ¬ uid = "") (h3 : radarLoc cfg (ccOfB cfg s) = true) :
    radarStepB cfg seenP uidSummary ((pmid, uids) :: rest) newP recs seen =
      radarStepB cfg seenP uidSummary rest
        (newP ++ [project_key_from_summary s]) recs seen := by
  conv_lhs => unfold radarStepB
  rw [h]
  simp [hu, h3]

theorem radarStepB_cons_some_keep (cfg : RadarCfg) (seenP : List String)
    (uidSummary : List (String × RadarSummary)) (pmid : String)
    (uids : List String) (rest : List (String × List String))
    (newP : List String) (recs : List RadarRecord) (seen : List String)
    (uid : String) (s : RadarSummary)
    (h : chooseUid seenP newP uidSummary uids = some (uid, s))
    (hu : ¬ uid = "") (h3 : radarLoc cfg (ccOfB cfg s) = false) :
    radarStepB cfg seenP uidSummary ((pmid, uids) :: rest) newP recs seen =
      radarStepB cfg seenP uidSummary rest
        (newP ++ [project_key_from_summary s])
        (recs ++ [mkRecB cfg pmid uid s])
        (seen ++ ["pmid:" ++ pmid, "sra:" ++ uid]) := by
  conv_lhs => unfold radarStepB
  rw [h]
  simp [hu, h3]

theorem chooseUid_cons_skip (seenP newP : List String)
    (uidSummary : List (String × RadarSummary)) (u : String)
    (rest : List String)
    (h : project_key_from_summary ((alFind uidSummary u).getD
        { sra_uid := u, title := "", bioproject := "" }) = "" ∨
      project_key_from_summary ((alFind uidSummary u).getD
        { sra_uid := u, title := "", bioproject := "" }) ∈ seenP ∨
      project_key_from_summary ((alFind uidSummary u).getD
        { sra_uid := u, title := "", bioproject := "" }) ∈ newP) :
    chooseUid seenP newP uidSummary (u :: rest) =
      chooseUid seenP newP uidSummary rest := by
  conv_lhs => unfold chooseUid
  by_cases hk : project_key_from_summary ((alFind uidSummary u).getD
      { sra_uid := u, title := "", bioproject := "" }) = ""
  · simp [hk]
  · have h2 : project_key_from_summary ((alFind uidSummary u).getD
        { sra_uid := u, title := "", bioproject := "" }) ∈ seenP ∨
      project_key_from_summary ((alFind uidSummary u).getD
        { sra_uid := u, title := "", bioproject := "" }) ∈ newP := by
      tauto
    simp [hk, h2]

theorem chooseUid_cons_take (seenP newP : List String)
    (uidSummary : List (String × RadarSummary)) (u : String)
    (rest : List String)
    (hk : ¬ project_key_from_summary ((alFind uidSummary u).getD
        { sra_uid := u, title := "", bioproject := "" }) = "")
    (hd : ¬ (project_key_from_summary ((alFind uidSummary u).getD
        { sra_uid := u, title := "", bioproject := "" }) ∈ seenP ∨
      project_key_from_summary ((alFind uidSummary u).getD
        { sra_uid := u, title := "", bioproject := "" }) ∈ newP)) :
    chooseUid seenP newP uidSummary (u :: rest) =
      some (u, (alFind uidSummary u).getD
        { sra_uid := u, title := "", bioproject := "" }) := by
  conv_lhs => unfold chooseUid
  simp [hk, hd]

/-- What a successful selection guarantees: the chosen summary's key is
non-empty and fresh, and the summary either came from `uid_summary` or is
the fallback stub carrying the uid itself. -/
theorem chooseUid_spec (seenP newP : List String)
    (uidSummary : List (String × RadarSummary)) :
    ∀ (uids : List String) (uid : String) (s : RadarSummary),
      chooseUid seenP newP uidSummary uids = some (uid, s) →
      ¬ project_key_from_summary s = "" ∧
      ¬ project_key_from_summary s ∈ seenP ∧
      ¬ project_key_from_summary s ∈ newP ∧
      ((uid, s) ∈ uidSummary ∨ s.sra_uid = uid) := by
  intro uids
  induction uids with
  | nil =>
    intro uid s h
    simp [chooseUid] at h
  | cons u rest ih =>
    intro uid s h
    by_cases hk : project_key_from_summary ((alFind uidSummary u).getD
        { sra_uid := u, title := "", bioproject := "" }) = ""
    · rw [chooseUid_cons_skip seenP newP uidSummary u rest (Or.inl hk)] at h
      exact ih uid s h
    · by_cases hd : project_key_from_summary ((alFind uidSummary u).getD
          { sra_uid := u, title := "", bioproject := "" }) ∈ seenP ∨
        project_key_from_summary ((alFind uidSummary u).getD
          { sra_uid := u, title := "", bioproject := "" }) ∈ newP
      · rw [chooseUid_cons_skip seenP newP uidSummary u rest (Or.inr hd)] at h
        exact ih uid s h
      · rw [chooseUid_cons_take seenP newP uidSummary u rest hk hd] at h
        have hu : u = uid ∧ ((alFind uidSummary u).getD
            { sra_uid := u, title := "", bioproject := "" }) = s := by
          simpa using h
        obtain ⟨hu1, hu2⟩ := hu
        subst hu1
        refine ⟨hu2 ▸ hk, fun hc => hd (Or.inl (hu2 ▸ hc)),
          fun hc => hd (Or.inr (hu2 ▸ hc)), ?_⟩
        cases hal : alFind uidSummary u with
        | none =>
          right
          rw [← hu2, hal]
          rfl
        | some v =>
          left
          have hv : v = s := by rw [← hu2, hal]; rfl
          exact hv ▸ alFind_mem hal

/-- Catalog records with pairwise-distinct project keys. -/
def KeyDistinct (l : List RadarRecord) : Prop :=
  List.Pairwise (fun a b => recordProjKey a ≠ recordProjKey b) l

/-- Branch A preserves and propagates the dedup invariant: keys of emitted
records land in the returned `new_projects`, avoid `seen_projects`, and are
pairwise distinct. -/
theorem radarStepA_inv (cfg : RadarCfg) (seenP : List String) :
    ∀ (ss : List RadarSummary) (newP : List String) (recs : List RadarRecord)
      (seen : List String),
      (∀ r ∈ recs, recordProjKey r ∈ newP ∧ ¬ recordProjKey r ∈ seenP) →
      KeyDistinct recs →
      (∀ x ∈ newP, x ∈ (radarStepA cfg seenP ss newP recs seen).1) ∧
      (∀ r ∈ (radarStepA cfg seenP ss newP recs seen).2.1,
        recordProjKey r ∈ (radarStepA cfg seenP ss newP recs seen).1 ∧
        ¬ recordProjKey r ∈ seenP) ∧
      KeyDistinct (radarStepA cfg seenP ss newP recs seen).2.1 := by
  intro ss
  induction ss with
  | nil =>
    intro newP recs seen h1 h2
    rw [radarStepA_nil]
    exact ⟨fun x hx => hx, h1, h2⟩
  | cons s rest ih =>
    intro newP recs seen h1 h2
    by_cases hb : pyStrip s.sra_uid = "" ∨ project_key_from_summary s = ""
    · rw [radarStepA_cons_bad cfg seenP s rest newP recs seen hb]
      exact ih newP recs seen h1 h2
    · by_cases hd : project_key_from_summary s ∈ seenP ∨
          project_key_from_summary s ∈ newP
      · rw [radarStepA_cons_dup cfg seenP s rest newP recs seen hb hd]
        exact ih newP recs seen h1 h2
      · cases hl : radarLoc cfg (ccOfA cfg s) with
        | true =>
          rw [radarStepA_cons_loc cfg seenP s rest newP recs seen hb hd hl]
          exact ih newP recs seen h1 h2
        | false =>
          rw [radarStepA_cons_keep cfg seenP s rest newP recs seen hb hd hl]
          have hnew1 : ∀ r ∈ recs ++ [mkRecA cfg s],
              recordProjKey r ∈ newP ++ [project_key_from_summary s] ∧
              ¬ recordProjKey r ∈ seenP := by
            intro r hr
            rcases List.mem_append.1 hr with hm | hm
            · exact ⟨List.mem_append_left _ (h1 r hm).1, (h1 r hm).2⟩
            · have hrs : r = mkRecA cfg s := by simpa using hm
              subst hrs
              rw [recordProjKey_mkRecA]
              exact ⟨List.mem_append_right _ (by simp),
                fun hc => hd (Or.inl hc)⟩
          have hnew2 : KeyDistinct (recs ++ [mkRecA cfg s]) := by
            unfold KeyDistinct at h2 ⊢
            rw [List.pairwise_append]
            refine ⟨h2, List.pairwise_singleton _ _, ?_⟩
            intro a ha b hb2
            have hbs : b = mkRecA cfg s := by simpa using hb2
            subst hbs
            rw [recordProjKey_mkRecA]
            intro he
            exact hd (Or.inr (he ▸ (h1 a ha).1))
          obtain ⟨g1, g2, g3⟩ := ih _ _ _ hnew1 hnew2
          exact ⟨fun x hx => g1 x (List.mem_append_left _ hx), g2, g3⟩

/-- Branch B preserves the same invariant, given that `uid_summary` entries
carry their own key as `sra_uid` (true by construction of the dict). -/
theorem radarStepB_inv (cfg : RadarCfg) (seenP : List String)
    (uidSummary : List (String × RadarSummary))
    (huid : ∀ p ∈ uidSummary, p.2.sra_uid = p.1) :
    ∀ (ps : List (String × List String)) (newP : List String)
      (recs : List RadarRecord) (seen : List String),
      (∀ r ∈ recs, recordProjKey r ∈ newP ∧ ¬ recordProjKey r ∈ seenP) →
      KeyDistinct recs →
      (∀ x ∈ newP, x ∈ (radarStepB cfg seenP uidSummary ps newP recs seen).1) ∧
      (∀ r ∈ (radarStepB cfg seenP uidSummary ps newP recs seen).2.1,
        recordProjKey r ∈ (radarStepB cfg seenP uidSummary ps newP recs seen).1 ∧
        ¬ recordProjKey r ∈ seenP) ∧
      KeyDistinct (radarStepB cfg seenP uidSummary ps newP recs seen).2.1 := by
  intro ps
  induction ps with
  | nil =>
    intro newP recs seen h1 h2
    rw [radarStepB_nil]
    exact ⟨fun x hx => hx, h1, h2⟩
  | cons p rest ih =>
    obtain ⟨pmid, uids⟩ := p
    intro newP recs seen h1 h2
    cases hc : chooseUid seenP newP uidSummary uids with
    | none =>
      rw [radarStepB_cons_none cfg seenP uidSummary pmid uids rest newP recs
        seen hc]
      exact ih newP recs seen h1 h2
    | some pr =>
      obtain ⟨uid, s⟩ := pr
      obtain ⟨hk, hks, hkn, hmem⟩ :=
        chooseUid_spec seenP newP uidSummary uids uid s hc
      have hsu : s.sra_uid = uid := by
        rcases hmem with hm | hm
        · exact huid _ hm
        · exact hm
      have hext : ∀ r ∈ recs,
          recordProjKey r ∈ newP ++ [project_key_from_summary s] ∧
          ¬ recordProjKey r ∈ seenP :=
        fun r hr => ⟨List.mem_append_left _ (h1 r hr).1, (h1 r hr).2⟩
      by_cases hu : uid = ""
      · rw [radarStepB_cons_some_empty cfg seenP uidSummary pmid uids rest
          newP recs seen uid s hc hu]
        obtain ⟨g1, g2, g3⟩ := ih _ _ _ hext h2
        exact ⟨fun x hx => g1 x (List.mem_append_left _ hx), g2, g3⟩
      · cases hl : radarLoc cfg (ccOfB cfg s) with
        | true =>
          rw [radarStepB_cons_some_loc cfg seenP uidSummary pmid uids rest
            newP recs seen uid s hc hu hl]
          obtain ⟨g1, g2, g3⟩ := ih _ _ _ hext h2
          exact ⟨fun x hx => g1 x (List.mem_append_left _ hx), g2, g3⟩
        | false =>
          rw [radarStepB_cons_some_keep cfg seenP uidSummary pmid uids rest
            newP recs seen uid s hc hu hl]
          have hnew1 : ∀ r ∈ recs ++ [mkRecB cfg pmid uid s],
              recordProjKey r ∈ newP ++ [project_key_from_summary s] ∧
              ¬ recordProjKey r ∈ seenP := by
            intro r hr
            rcases List.mem_append.1 hr with hm | hm
            · exact hext r hm
            · have hrs : r = mkRecB cfg pmid uid s := by simpa using hm
              subst hrs
              rw [recordProjKey_mkRecB cfg pmid uid s hsu]
              exact ⟨List.mem_append_right _ (by simp), hks⟩
          have hnew2 : KeyDistinct (recs ++ [mkRecB cfg pmid uid s]) := by
            unfold KeyDistinct at h2 ⊢
            rw [List.pairwise_append]
            refine ⟨h2, List.pairwise_singleton _ _, ?_⟩
            intro a ha b hb2
            have hbs : b = mkRecB cfg pmid uid s := by simpa using hb2
            subst hbs
            rw [recordProjKey_mkRecB cfg pmid uid s hsu]
            intro he
            exact hkn (he ▸ (h1 a ha).1)
          obtain ⟨g1, g2, g3⟩ := ih _ _ _ hnew1 hnew2
          exact ⟨fun x hx => g1 x (List.mem_append_left _ hx), g2, g3⟩

/-- `run_day`'s visible outputs satisfy the dedup invariant: every returned
record's key is in the returned `new_projects`, none is in `seen_projects`,
and the returned records have pairwise-distinct keys. -/
theorem run_day_keys (cfg : RadarCfg) (seenIds seenP : List String)
    (inp : RunDayInput) (huid : ∀ p ∈ inp.uidSummary, p.2.sra_uid = p.1) :
    (∀ r ∈ (run_day cfg seenIds seenP inp).1,
      recordProjKey r ∈ (run_day cfg seenIds seenP inp).2.2 ∧
      ¬ recordProjKey r ∈ seenP) ∧
    KeyDistinct (run_day cfg seenIds seenP inp).1 := by
  obtain ⟨a1, a2, a3⟩ := radarStepA_inv cfg seenP inp.summaries [] [] []
    (by intro r hr; cases hr) List.Pairwise.nil
  obtain ⟨b1, b2, b3⟩ := radarStepB_inv cfg seenP inp.uidSummary huid
    inp.pmidToSra (radarStepA cfg seenP inp.summaries [] [] []).1
    (radarStepA cfg seenP inp.summaries [] [] []).2.1
    (radarStepA cfg seenP inp.summaries [] [] []).2.2 a2 a3
  have hr1 : (run_day cfg seenIds seenP inp).1 =
      (radarStepB cfg seenP inp.uidSummary inp.pmidToSra
        (radarStepA cfg seenP inp.summaries [] [] []).1
        (radarStepA cfg seenP inp.summaries [] [] []).2.1
        (radarStepA cfg seenP inp.summaries [] [] []).2.2).2.1.filter
        (fun r => !((r.source == "sra_search") && (r.sra_uid != "") &&
          (seenIds.contains ("sra:" ++ r.sra_uid)))) := rfl
  have hr3 : (run_day cfg seenIds seenP inp).2.2 =
      (radarStepB cfg seenP inp.uidSummary inp.pmidToSra
        (radarStepA cfg seenP inp.summaries [] [] []).1
        (radarStepA cfg seenP inp.summaries [] [] []).2.1
        (radarStepA cfg seenP inp.summaries [] [] []).2.2).1 := rfl
  constructor
  · intro r hr
    rw [hr1] at hr
    have hm := List.mem_of_mem_filter hr
    rw [hr3]
    exact b2 r hm
  · rw [hr1]
    exact b3.sublist (List.filter_sublist _)

/-- The corpus/ledger invariant maintained by `main`'s day loop: every
catalog record's key is in the persisted project ledger, and catalog keys
are pairwise distinct. -/
def RadarInv (st : RadarState) : Prop :=
  (∀ r ∈ st.corpus, recordProjKey r ∈ st.seenProjects) ∧
  KeyDistinct st.corpus

theorem radar_main_step_inv (cfg : RadarCfg) (st : RadarState)
    (inp : RunDayInput) (huid : ∀ p ∈ inp.uidSummary, p.2.sra_uid = p.1)
    (h : RadarInv st) : RadarInv (radar_main_step cfg st inp) := by
  obtain ⟨h1, h2⟩ := h
  obtain ⟨g1, g2⟩ := run_day_keys cfg st.seenIds st.seenProjects inp huid
  have hc : (radar_main_step cfg st inp).corpus =
      st.corpus ++ (run_day cfg st.seenIds st.seenProjects inp).1 := rfl
  have hs : (radar_main_step cfg st inp).seenProjects =
      st.seenProjects ++ (run_day cfg st.seenIds st.seenProjects inp).2.2 :=
    rfl
  constructor
  · intro r hr
    rw [hc] at hr
    rw [hs]
    rcases List.mem_append.1 hr with hm | hm
    · exact List.mem_append_left _ (h1 r hm)
    · exact List.mem_append_right _ (g1 r hm).1
  · rw [hc]
    unfold KeyDistinct at h2 g2 ⊢
    rw [List.pairwise_append]
    refine ⟨h2, g2, ?_⟩
    intro a ha b hb
    intro he
    exact (g1 b hb).2 (he ▸ h1 a ha)

theorem radar_main_inv (cfg : RadarCfg) :
    ∀ (inps : List RunDayInput) (st : RadarState),
      (∀ inp ∈ inps, ∀ p ∈ inp.uidSummary, p.2.sra_uid = p.1) →
      RadarInv st → RadarInv (radar_main cfg inps st) := by
  intro inps
  induction inps with
  | nil => intro st _ h; exact h
  | cons i is ih =>
    intro st hu h
    have hf : radar_main cfg (i :: is) st =
        radar_main cfg is (radar_main_step cfg st i) := rfl
    rw [hf]
    exact ih _ (fun inp hinp => hu inp (List.mem_cons_of_mem _ hinp))
      (radar_main_step_inv cfg st i (hu i (List.mem_cons_self _ _)) h)

/-- Pairwise-distinct keys bound the per-key multiplicity by one. -/
theorem keyDistinct_count (l : List RadarRecord) (h : KeyDistinct l)
    (P : String) :
    (l.filter (fun r => recordProjKey r == P)).length ≤ 1 := by
  induction l with
  | nil => simp
  | cons a t ih =>
    have hp := List.pairwise_cons.1 h
    by_cases ha : recordProjKey a = P
    · have hft : t.filter (fun r => recordProjKey r == P) = [] := by
        rw [List.filter_eq_nil_iff]
        intro b hb hbeq
        have hbp : recordProjKey b = P := by simpa using hbeq
        exact hp.1 b hb (ha.trans hbp.symm)
      rw [List.filter_cons]
      simp [ha, hft]
    · rw [List.filter_cons]
      have hab : (recordProjKey a == P) = false := by
        simpa using ha
      simp only [hab, cond_false, Bool.false_eq_true, if_false]
      exact ih hp.2

def radarHeur0 : RadarHeur :=
  { classify_study_type := fun _ => "other"
    extract_city_country := fun _ => (none, none) }

def radarCfg0 : RadarCfg :=
  { heur := radarHeur0
    query := "urban microbiome"
    dayIso := "2024-01-01"
    require_location := false }

def radarSum1 : RadarSummary :=
  { sra_uid := "7", title := "a", bioproject := "prjna1" }

def radarSum2 : RadarSummary :=
  { sra_uid := "8", title := "b", bioproject := "PRJNA1" }

def radarInp0 : RunDayInput :=
  { summaries := [radarSum1, radarSum2]
    pmidToSra := []
    uidSummary := [] }

def radarSt0 : RadarState :=
  { corpus := []
    seenIds := []
    seenProjects := [] }

/-- C1: at-most-once per canonical project.  Over any sequence of days
(each contributing arbitrary network results) starting from a state whose
catalog keys are ledgered and pairwise distinct — the empty initial state
in particular — the catalog `main` accumulates never holds two records
with the same canonical project key: kept keys enter the in-memory
`new_projects` set immediately (in branch A on keep, in branch B at
selection time), both branches test candidate keys against
`seen_projects` and `new_projects`, and `main` merges `new_projects` into
the persisted ledger after each day.  The side condition states that
`uid_summary` entries carry their key as their `sra_uid` field, which is
true by construction of that dict. -/
theorem radar_at_most_once_per_project (cfg : RadarCfg)
    (inps : List RunDayInput) (st : RadarState)
    (huid : ∀ inp ∈ inps, ∀ p ∈ inp.uidSummary, p.2.sra_uid = p.1)
    (hinv : RadarInv st) (P : String) :
    ((radar_main cfg inps st).corpus.filter
      (fun r => recordProjKey r == P)).length ≤ 1 :=
  keyDistinct_count _ (radar_main_inv cfg inps st huid hinv).2 P

/-- C1 (witness): a concrete day whose summaries name the same BioProject
twice (`prjna1` and `PRJNA1` canonicalize alike), run from the empty
state. -/
theorem radar_at_most_once_per_project_witness :
    (∀ inp ∈ [radarInp0], ∀ p ∈ inp.uidSummary, p.2.sra_uid = p.1) ∧
    RadarInv radarSt0 ∧
    ((radar_main radarCfg0 [radarInp0] radarSt0).corpus.filter
      (fun r => recordProjKey r == "PRJNA1")).length ≤ 1 := by
  have hu : ∀ inp ∈ [radarInp0], ∀ p ∈ inp.uidSummary, p.2.sra_uid = p.1 := by
    simp [radarInp0]
  have hI : RadarInv radarSt0 := by
    constructor
    · intro r hr
      simp [radarSt0] at hr
    · exact List.Pairwise.nil
  exact ⟨hu, hI, radar_at_most_once_per_project radarCfg0 [radarInp0]
    radarSt0 hu hI "PRJNA1"⟩

theorem radarLoc_false_iff (cfg : RadarCfg)
    (cc : Option String × Option String) :
    radarLoc cfg cc = false ↔
      (cfg.require_location = true →
        optFalsy cc.1 = false ∧ optFalsy cc.2 = false) := by
  unfold radarLoc
  cases cfg.require_location with
  | false => simp
  | true =>
    cases h1 : optFalsy cc.1 with
    | false =>
      cases h2 : optFalsy cc.2 with
      | false => simp [h1, h2]
      | true => simp [h1, h2]
    | true => simp [h1]

/-- The keep rule of the amended C5, phrased from the spec side: raw uid
non-empty, canonical key non-empty, key not in the persisted ledger, key
not used by an earlier *kept* summary of the batch, and — when
`require_location` is set — both extracted city and country truthy. -/
def specKeepCond (cfg : RadarCfg) (seenProjects used : List String)
    (s : RadarSummary) : Prop :=
  ¬ pyStrip s.sra_uid = "" ∧ ¬ project_key_from_summary s = "" ∧
  ¬ project_key_from_summary s ∈ seenProjects ∧
  ¬ project_key_from_summary s ∈ used ∧
  (cfg.require_location = true →
    optFalsy (ccOfA cfg s).1 = false ∧ optFalsy (ccOfA cfg s).2 = false)

instance (cfg : RadarCfg) (seenProjects used : List String)
    (s : RadarSummary) : Decidable (specKeepCond cfg seenProjects used s) := by
  unfold specKeepCond
  infer_instance

/-- The spec-side aggregator: scan the batch in order, keep exactly the
summaries satisfying `specKeepCond`, first-seen-wins on the key. -/
def specKeptA (cfg : RadarCfg) (seenProjects : List String) :
    List RadarSummary → List String → List RadarSummary
  | [], _ => []
  | s :: rest, used =>
    if specKeepCond cfg seenProjects used s then
      s :: specKeptA cfg seenProjects rest
        (used ++ [project_key_from_summary s])
    else specKeptA cfg seenProjects rest used

theorem specKeptA_cons_keep (cfg : RadarCfg) (seenProjects : List String)
    (s : RadarSummary) (rest : List RadarSummary) (used : List String)
    (h : specKeepCond cfg seenProjects used s) :
    specKeptA cfg seenProjects (s :: rest) used =
      s :: specKeptA cfg seenProjects rest
        (used ++ [project_key_from_summary s]) := by
  conv_lhs => unfold specKeptA
  simp [h]

theorem specKeptA_cons_skip (cfg : RadarCfg) (seenProjects : List String)
    (s : RadarSummary) (rest : List RadarSummary) (used : List String)
    (h : ¬ specKeepCond cfg seenProjects used s) :
    specKeptA cfg seenProjects (s :: rest) used =
      specKeptA cfg seenProjects rest used := by
  conv_lhs => unfold specKeptA
  simp [h]

theorem specKeptA_mem (cfg : RadarCfg) (seenP : List String) :
    ∀ (ss : List RadarSummary) (used : List String) (s : RadarSummary),
      s ∈ specKeptA cfg seenP ss used → s ∈ ss := by
  intro ss
  induction ss with
  | nil =>
    intro used s h
    simp [specKeptA] at h
  | cons a rest ih =>
    intro used s h
    by_cases hc : specKeepCond cfg seenP used a
    · rw [specKeptA_cons_keep cfg seenP a rest used hc] at h
      rcases List.mem_cons.1 h with hm | hm
      · exact hm ▸ List.mem_cons_self a rest
      · exact List.mem_cons_of_mem _ (ih _ s hm)
    · rw [specKeptA_cons_skip cfg seenP a rest used hc] at h
      exact List.mem_cons_of_mem _ (ih _ s h)

/-- Branch A's record list is exactly the spec-side aggregator's keeps,
rendered through `mkRecA`. -/
theorem radarStepA_records (cfg : RadarCfg) (seenP : List String) :
    ∀ (ss : List RadarSummary) (newP : List String)
      (recs : List RadarRecord) (seen : List String),
      (radarStepA cfg seenP ss newP recs seen).2.1 =
        recs ++ (specKeptA cfg seenP ss newP).map (mkRecA cfg) := by
  intro ss
  induction ss with
  | nil =>
    intro newP recs seen
    rw [radarStepA_nil]
    simp [specKeptA]
  | cons s rest ih =>
    intro newP recs seen
    by_cases hb : pyStrip s.sra_uid = "" ∨ project_key_from_summary s = ""
    · have hnc : ¬ specKeepCond cfg seenP newP s := by
        intro hc
        rcases hb with h | h
        · exact hc.1 h
        · exact hc.2.1 h
      rw [radarStepA_cons_bad cfg seenP s rest newP recs seen hb,
        specKeptA_cons_skip cfg seenP s rest newP hnc]
      exact ih newP recs seen
    · by_cases hd : project_key_from_summary s ∈ seenP ∨
          project_key_from_summary s ∈ newP
      · have hnc : ¬ specKeepCond cfg seenP newP s := by
          intro hc
          rcases hd with h | h
          · exact hc.2.2.1 h
          · exact hc.2.2.2.1 h
        rw [radarStepA_cons_dup cfg seenP s rest newP recs seen hb hd,
          specKeptA_cons_skip cfg seenP s rest newP hnc]
        exact ih newP recs seen
      · cases hl : radarLoc cfg (ccOfA cfg s) with
        | true =>
          have hnc : ¬ specKeepCond cfg seenP newP s := by
            intro hc
            have hfl := (radarLoc_false_iff cfg (ccOfA cfg s)).2 hc.2.2.2.2
            rw [hl] at hfl
            cases hfl
          rw [radarStepA_cons_loc cfg seenP s rest newP recs seen hb hd hl,
            specKeptA_cons_skip cfg seenP s rest newP hnc]
          exact ih newP recs seen
        | false =>
          have hcond : specKeepCond cfg seenP newP s :=
            ⟨fun h => hb (Or.inl h), fun h => hb (Or.inr h),
              fun h => hd (Or.inl h), fun h => hd (Or.inr h),
              (radarLoc_false_iff cfg (ccOfA cfg s)).1 hl⟩
          rw [radarStepA_cons_keep cfg seenP s rest newP recs seen hb hd hl,
            specKeptA_cons_keep cfg seenP s rest newP hcond, ih]
          simp

def radarSumEmptyUid : RadarSummary :=
  { sra_uid := "", title := "t", bioproject := "PRJNA1" }

def radarInpEmptyUid : RunDayInput :=
  { summaries := [radarSumEmptyUid]
    pmidToSra := []
    uidSummary := [] }

/-- C5 (counterexample): a summary with an empty raw uid but the BioProject
accession `PRJNA1` has a non-empty canonical key not in the (empty) ledger
and stands first in its batch, so the claimed rule keeps it — yet branch A
of `run_day` drops it at `if not uid or not proj_key`, silently: the
return value carries no reason codes at all. -/
theorem run_day_keep_rule_counterexample :
    ¬ project_key_from_summary radarSumEmptyUid = "" ∧
    ¬ project_key_from_summary radarSumEmptyUid ∈ ([] : List String) ∧
    (run_day radarCfg0 [] [] radarInpEmptyUid).1 = [] := by
  refine ⟨by decide, by simp, by decide⟩

/-- C5 (amended): keep rule of the SRA-direct branch.  With PubMed yielding
nothing that day, and granting that the uids summarized were exactly the
not-yet-seen ones (the code builds `summaries` from `sra_uids_new`, so the
post-filter never fires), `run_day` returns exactly the summaries kept by
the spec-side rule `specKeptA` — raw uid non-empty, canonical key
non-empty, key neither in the persisted ledger nor already used by an
earlier kept summary (first-seen-wins), and both city and country truthy
when `require_location` is set — rendered as records in batch order.
Dropped summaries produce nothing: no reason codes exist. -/
theorem run_day_keep_rule_amended (cfg : RadarCfg)
    (seenIds seenProjects : List String) (summaries : List RadarSummary)
    (hseen : ∀ s ∈ summaries, ¬ ("sra:" ++ pyStrip s.sra_uid) ∈ seenIds) :
    (run_day cfg seenIds seenProjects
      { summaries := summaries
        pmidToSra := []
        uidSummary := [] }).1 =
      (specKeptA cfg seenProjects summaries []).map (mkRecA cfg) := by
  have hr1 : (run_day cfg seenIds seenProjects
      { summaries := summaries
        pmidToSra := []
        uidSummary := [] }).1 =
      ((radarStepA cfg seenProjects summaries [] [] []).2.1).filter
        (fun r => !((r.source == "sra_search") && (r.sra_uid != "") &&
          (seenIds.contains ("sra:" ++ r.sra_uid)))) := rfl
  rw [hr1, radarStepA_records cfg seenProjects summaries [] [] []]
  simp only [List.nil_append]
  apply List.filter_eq_self.2
  intro r hr
  obtain ⟨s, hsmem, hrs⟩ := List.mem_map.1 hr
  subst hrs
  have hs2 : s ∈ summaries := specKeptA_mem cfg seenProjects summaries [] s hsmem
  simp [mkRecA]
  exact Or.inr (hseen s hs2)

/-- C5 (witness): the amended rule at a concrete batch — two summaries
canonicalizing to the same BioProject key, empty ledgers. -/
theorem run_day_keep_rule_amended_witness :
    (∀ s ∈ [radarSum1, radarSum2],
      ¬ ("sra:" ++ pyStrip s.sra_uid) ∈ ([] : List String)) ∧
    (run_day radarCfg0 [] []
      { summaries := [radarSum1, radarSum2]
        pmidToSra := []
        uidSummary := [] }).1 =
      (specKeptA radarCfg0 [] [radarSum1, radarSum2]
        []).map (mkRecA radarCfg0) := by
  have hs : ∀ s ∈ [radarSum1, radarSum2],
      ¬ ("sra:" ++ pyStrip s.sra_uid) ∈ ([] : List String) := by
    simp
  exact ⟨hs, run_day_keep_rule_amended radarCfg0 [] []
    [radarSum1, radarSum2] hs⟩
